import Mathlib

/-!
Verification development for the redis-backed multi-process channel
(`channel.py`).  The Python code is shallowly embedded: the redis store
becomes an explicit `Store` value threaded through every operation,
redis byte strings become `List Char`, integers become `Int`, and
Python exceptions become an explicit `PyErr` result.
-/

namespace Channel

/-- Byte strings as stored by redis, and Python `str` values, are both
modelled as lists of characters. -/
abbrev RStr := List Char

/-- Numeric value of a decimal digit character. -/
def digitVal (c : Char) : Nat := c.toNat - 48

/-- Whether a character is a decimal digit. -/
def isDigitC (c : Char) : Bool := decide (48 ≤ c.toNat) && decide (c.toNat ≤ 57)

/-- Parse a nonempty all-digit string into a natural number
(the digits-only core of Python `int`). -/
def parseNatOf (s : RStr) : Option Nat :=
  if s ≠ [] ∧ s.all isDigitC then
    some (Nat.ofDigits 10 ((s.map digitVal).reverse))
  else none

/-- Python `int(s)` on a canonical decimal string, possibly with a
leading minus sign; `none` models the `ValueError` raised on malformed
input. -/
def pyIntOf : RStr → Option Int
  | [] => none
  | c :: rest =>
    if c = '-' then (parseNatOf rest).map (fun n : Nat => -(n : Int))
    else (parseNatOf (c :: rest)).map (fun n : Nat => (n : Int))

/-- Total variant of `pyIntOf`; every string this development ever
stores in redis is a canonical decimal integer, so the default is
never exercised on reachable data. -/
def pyIntD (s : RStr) : Int := (pyIntOf s).getD 0

/-- Little-endian base-10 digits, by structural recursion on a fuel
bound so that the kernel can evaluate it. -/
def digitsRevAux : Nat → Nat → List Nat
  | 0, _ => []
  | fuel + 1, n => if n = 0 then [] else n % 10 :: digitsRevAux fuel (n / 10)

/-- Decimal digit characters of a natural number, most significant
first (Python `str(n)` for `n ≥ 0`). -/
def natDigitsChars (n : Nat) : RStr :=
  if n = 0 then ['0'] else ((digitsRevAux n n).map Nat.digitChar).reverse

/-- Pad on the left with zeros up to width `w` (the `0`-fill of the
Python format spec `04d`). -/
def padZ (w : Nat) (s : RStr) : RStr := List.replicate (w - s.length) '0' ++ s

/-- Python `format(i, FORMATSTR)` with `FORMATSTR = '04d'`: zero-padded
width-4 decimal; for a negative number the sign occupies one of the
four columns. -/
def format4 (i : Int) : RStr :=
  if i < 0 then '-' :: padZ 3 (natDigitsChars i.natAbs)
  else padZ 4 (natDigitsChars i.natAbs)

/-- Python `str(i)` for an integer. -/
def intRepr (i : Int) : RStr :=
  if i < 0 then '-' :: natDigitsChars i.natAbs else natDigitsChars i.natAbs

/-! ## Key codec

`channel.py` builds every redis key from the channel id:
`channelKey = 'C' + format(channelID, FORMATSTR)` plus a suffix
(`OID`, `MID`, `WOS`), and encodes a (sender, receiver) pair of
channel-level ids as `channelKey + format(i) + format(j)`
(`__procs2key`), decoded back by fixed-position slicing
(`__key2procs`). -/

/-- `self.channelKey`: the channel namespace prefix. -/
def channelKey (c : Int) : RStr := 'C' :: format4 c

/-- `self.osmembersID`: key of the hash mapping OS pid to channel pid. -/
def osmembersID (c : Int) : RStr := channelKey c ++ ['O', 'I', 'D']

/-- `self.membersID`: key of the set of channel-level process ids. -/
def membersID (c : Int) : RStr := channelKey c ++ ['M', 'I', 'D']

/-- `self.wakeOnSend`: prefix of the per-receiver wakeup-queue keys. -/
def wakeOnSend (c : Int) : RStr := channelKey c ++ ['W', 'O', 'S']

/-- The global redis set of known channel ids, keyed `channelSet`. -/
def channelSetKey : RStr := ['c', 'h', 'a', 'n', 'n', 'e', 'l', 'S', 'e', 't']

/-- `Channel.__procs2key`: encode a (sender, receiver) pair of
channel-level ids into one key. -/
def procs2key (c i j : Int) : RStr := channelKey c ++ format4 i ++ format4 j

/-- `Channel.__key2procs`: slice the two ids back out of a pair key
(`key[5:9]` and `key[9:13]` with `NUMDIGITS = 4`); `none` models the
`ValueError` that `int` raises on a malformed slice. -/
def key2procs (key : RStr) : Option (Int × Int) :=
  match pyIntOf ((key.drop 5).take 4), pyIntOf ((key.drop 9).take 4) with
  | some p0, some p1 => some (p0, p1)
  | _, _ => none

/-- `Channel.__wakeupKey` applied to a Python int:
`str(self.wakeOnSend) + str(i)`. -/
def wakeupKey (c i : Int) : RStr := wakeOnSend c ++ intRepr i

/-- Python `str` applied to a bytes value `b`: the result is the
literal text `b` + quote + contents + quote, not the contents. -/
def pyBytesStr (s : RStr) : RStr := 'b' :: Char.ofNat 39 :: (s ++ [Char.ofNat 39])

/-- `Channel.__wakeupKey` applied to a raw bytes set member, as
`sendToAll` does: the key gets the `b` + quote rendering embedded. -/
def wakeupKeyBytes (c : Int) (s : RStr) : RStr := wakeOnSend c ++ pyBytesStr s

/-! ## The redis store

The backing store is modelled as three keyed namespaces: sets (used by
`sadd` / `smembers` / `sismember`), hashes (`hset` / `hgetall` /
`hdel`) and lists (`rpush` / `blpop` / `exists`).  Redis stores every
value as a byte string; integer arguments are converted to their
decimal representation on the way in and come back as byte strings. -/

/-- A value sitting on a redis list: either a pickled message payload
or the literal `WAKEUP` marker string. -/
inductive Val where
  | payload (m : Int)
  | wakeupMark
deriving DecidableEq

/-- The Python exceptions the channel code can raise. -/
inductive PyErr where
  | assertionFailed
  | attributeError
  | keyError
  | valueError
  | unpickleError
deriving DecidableEq

/-- The whole redis keyspace. An absent key is an empty collection. -/
structure Store where
  sets : RStr → List RStr
  hashes : RStr → List (RStr × RStr)
  queues : RStr → List Val

/-- Point update of a keyed namespace. -/
def upd {α : Type} (f : RStr → α) (k : RStr) (v : α) : RStr → α :=
  fun x => if x = k then v else f x

/-- The store right after `flushall`. -/
def emptyStore : Store := ⟨fun _ => [], fun _ => [], fun _ => []⟩

/-- redis `SADD` (no duplicates; new members appended). -/
def Store.sadd (st : Store) (k v : RStr) : Store :=
  if v ∈ st.sets k then st
  else { st with sets := upd st.sets k (st.sets k ++ [v]) }

/-- redis `SMEMBERS` (byte strings). -/
def Store.smembers (st : Store) (k : RStr) : List RStr := st.sets k

/-- redis `SISMEMBER` with an integer argument: the client sends the
decimal rendering, so the test is against the stored byte strings. -/
def Store.sismemberI (st : Store) (k : RStr) (i : Int) : Bool :=
  decide (intRepr i ∈ st.sets k)

/-- redis `HSET` on byte-string field and value. -/
def Store.hset (st : Store) (k f v : RStr) : Store :=
  { st with
    hashes := upd st.hashes k
      (if (st.hashes k).any (fun p => decide (p.1 = f)) then
        (st.hashes k).map (fun p => if p.1 = f then (f, v) else p)
      else st.hashes k ++ [(f, v)]) }

/-- redis `HGETALL`. -/
def Store.hgetall (st : Store) (k : RStr) : List (RStr × RStr) := st.hashes k

/-- redis `HDEL`. -/
def Store.hdel (st : Store) (k f : RStr) : Store :=
  { st with hashes := upd st.hashes k ((st.hashes k).filter (fun p => decide (p.1 ≠ f))) }

/-- redis `RPUSH`. -/
def Store.rpush (st : Store) (k : RStr) (v : Val) : Store :=
  { st with queues := upd st.queues k (st.queues k ++ [v]) }

/-- redis `EXISTS`: a key exists when it holds a nonempty collection
of any type. -/
def Store.existsKey (st : Store) (k : RStr) : Bool :=
  !(st.queues k).isEmpty || !(st.sets k).isEmpty || !(st.hashes k).isEmpty

/-- redis `BLPOP` over a key list, restricted to the case where some
listed queue already has data: pops the head of the first nonempty
queue, returning which key fired; `none` when every queue is empty
(in the sequential model nothing can arrive while we wait). -/
def Store.blpop (st : Store) : List RStr → Option (RStr × Val × Store)
  | [] => none
  | k :: ks =>
    match st.queues k with
    | [] => st.blpop ks
    | v :: rest => some (k, v, { st with queues := upd st.queues k rest })

/-- Integer arguments to `sadd` go through `str`. -/
def Store.saddI (st : Store) (k : RStr) (i : Int) : Store := st.sadd k (intRepr i)

/-- Integer field/value arguments to `hset` go through `str`. -/
def Store.hsetI (st : Store) (k : RStr) (f v : Int) : Store :=
  st.hset k (intRepr f) (intRepr v)

/-- Integer field argument to `hdel` goes through `str`. -/
def Store.hdelI (st : Store) (k : RStr) (f : Int) : Store := st.hdel k (intRepr f)

/-! ## The channel operations

Each Python method becomes a function of the channel id `c`, the
identity `ospid` that `os.getpid()` returns for the calling process,
the method arguments and the current store. -/

/-- Python `==` between an `int` and a redis `bytes` reply is always
`False` whatever the two values are; `channel.py` relies on `in` /
`!=` tests that reduce to exactly this comparison. -/
def pyIntEqBytes (_i : Int) (_s : RStr) : Bool := false

/-- `Channel.__init__`: optionally flush, then register the channel id
and seed the sentinel entries (`-1 -> -1` in the OS-members hash and
`MAXPROCID = 9999` in the members set) when the channel is new. -/
def channelInit (c : Int) (flush : Bool) (st0 : Store) : Store :=
  let st := if flush then emptyStore else st0
  let channelSet := (st.smembers channelSetKey).map pyIntD
  if c ∈ channelSet then st
  else ((st.saddI channelSetKey c).hsetI (osmembersID c) (-1) (-1)).saddI
    (membersID c) 9999

/-- `Channel.__checkCaller`: resolve the callers OS pid through the
OS-members hash (as integers), then require the resolved channel-level
pid to be in the members set; an `AssertionError` models the
`UnknownProcess` failure. -/
def checkCaller (c ospid : Int) (st : Store) : Except PyErr Int :=
  let osmembers := (st.hgetall (osmembersID c)).map (fun p => (pyIntD p.1, pyIntD p.2))
  match osmembers.lookup ospid with
  | none => .error .assertionFailed
  | some pid => if st.sismemberI (membersID c) pid then .ok pid
    else .error .assertionFailed

/-- `Channel.join`: the two guarding asserts compare the callers int
pid against the byte-string hash keys and the int `newpid` against the
byte-string set members, so (faithful to CPython semantics) they can
never fire; then both registrations are written and `__checkCaller`
runs as a post-check. -/
def join (c ospid newpid : Int) (st : Store) : Except PyErr Unit × Store :=
  if (st.hgetall (osmembersID c)).any (fun p => pyIntEqBytes ospid p.1) then
    (.error .assertionFailed, st)
  else if (st.smembers (membersID c)).any (fun s => pyIntEqBytes newpid s) then
    (.error .assertionFailed, st)
  else
    let st1 := (st.hsetI (osmembersID c) ospid newpid).saddI (membersID c) newpid
    match checkCaller c ospid st1 with
    | .error e => (.error e, st1)
    | .ok _ => (.ok (), st1)

/-- `Channel.leave`: after authorization the OS-members entry is
deleted; the following `channel.sdel(...)` call names a method the
redis client does not have, so Python raises `AttributeError` with the
hash already mutated and the members set untouched. -/
def leave (c ospid : Int) (st : Store) : Except PyErr Unit × Store :=
  match checkCaller c ospid st with
  | .error e => (.error e, st)
  | .ok _pid => (.error .attributeError, st.hdelI (osmembersID c) ospid)

/-- The per-destination body of `Channel.sendTo`: check the
destination is a member (`DestinationNotMember` otherwise), push the
pickled payload on the pair queue, then push a `WAKEUP` marker on the
destinations wakeup queue. -/
def sendToLoop (c pid m : Int) : List Int → Store → Except PyErr Unit × Store
  | [], st => (.ok (), st)
  | i :: rest, st =>
    if st.sismemberI (membersID c) i then
      sendToLoop c pid m rest
        ((st.rpush (procs2key c pid i) (.payload m)).rpush (wakeupKey c i) .wakeupMark)
    else (.error .assertionFailed, st)

/-- `Channel.sendTo` with an explicit destination list (an int
destination is the singleton list). -/
def sendTo (c ospid : Int) (destination : List Int) (m : Int) (st : Store) :
    Except PyErr Unit × Store :=
  match checkCaller c ospid st with
  | .error e => (.error e, st)
  | .ok pid => sendToLoop c pid m destination st

/-- The loop body of `Channel.sendToAll`: iterates over the raw
byte-string members; the `i != MAXPROCID` filter compares bytes
against an int and is therefore always true (the sentinel is not
skipped), the pair queue gets the payload via `int(i)`, and the wakeup
push goes through `str` applied to bytes. -/
def sendToAllLoop (c pid m : Int) : List RStr → Store → Store
  | [], st => st
  | i :: rest, st =>
    if pyIntEqBytes 9999 i then sendToAllLoop c pid m rest st
    else sendToAllLoop c pid m rest
      ((st.rpush (procs2key c pid (pyIntD i)) (.payload m)).rpush
        (wakeupKeyBytes c i) .wakeupMark)

/-- `Channel.sendToAll`. -/
def sendToAll (c ospid m : Int) (st : Store) : Except PyErr Unit × Store :=
  match checkCaller c ospid st with
  | .error e => (.error e, st)
  | .ok pid => (.ok (), sendToAllLoop c pid m (st.smembers (membersID c)) st)

/-- `Channel.__keysExist`: true when any candidate key exists. -/
def keysExist (st : Store) (keys : List RStr) : Bool := keys.any st.existsKey

/-- Result of a receive call. -/
inductive RecvResult where
  | msg (sender : Int) (payload : Int)
  | noMsg
  | timedOut
  | blockedForever
  | pyerr (e : PyErr)
  | outOfFuel
deriving DecidableEq

/-- Outcome of one iteration of the receive loop. -/
inductive IterOut where
  | ret (r : RecvResult) (st : Store)
  | again (st : Store)

/-- The shared tail of one receive-loop iteration, from the candidate
key list onward: the non-blocking existence check, the `blpop`, the
spurious-wakeup test against the callers own wakeup key, and the
decode of a real message.  `blockedForever` models a `timeout = 0`
`blpop` that never returns because no data is present. -/
def recvDispatch (c pid : Int) (prockeys : List RStr) (block : Bool)
    (timeout : Int) (st : Store) : IterOut :=
  if block = false ∧ keysExist st prockeys = false then .ret .noMsg st
  else
    match st.blpop prockeys with
    | some (k, v, st1) =>
      if k ≠ wakeupKey c pid then
        match key2procs k with
        | none => .ret (.pyerr .valueError) st1
        | some (s0, _r0) =>
          match v with
          | .payload m => .ret (.msg s0 m) st1
          | .wakeupMark => .ret (.pyerr .unpickleError) st1
      else .again st1
    | none => if timeout = 0 then .ret .blockedForever st else .ret .timedOut st

/-- The current members as Python ints. -/
def membersInts (c : Int) (st : Store) : List Int :=
  (st.smembers (membersID c)).map pyIntD

/-- The candidate keys of one `recvFrom` iteration: a pair key per
requested sender plus the callers wakeup key. -/
def recvFromKeys (c pid : Int) (senderSet : List Int) : List RStr :=
  senderSet.map (fun i => procs2key c i pid) ++ [wakeupKey c pid]

/-- One iteration of the `recvFrom` while-loop: re-read membership,
drop the sentinel (`set.remove` raises `KeyError` when absent), check
every requested sender is a member (`UnknownSender`), then dispatch on
the freshly built candidate keys. -/
def recvFromIter (c pid : Int) (senderSet : List Int) (block : Bool)
    (timeout : Int) (st : Store) : IterOut :=
  let members := membersInts c st
  if 9999 ∈ members then
    let members2 := members.filter (fun i => decide (i ≠ 9999))
    if senderSet.all (fun i => decide (i ∈ members2)) then
      recvDispatch c pid (recvFromKeys c pid senderSet) block timeout st
    else .ret (.pyerr .assertionFailed) st
  else .ret (.pyerr .keyError) st

/-- The `recvFrom` while-loop, driven by fuel (each spurious wakeup
consumes one unit; the Python loop has no bound of its own). -/
def recvFromLoop (c pid : Int) (senderSet : List Int) (block : Bool)
    (timeout : Int) : Nat → Store → RecvResult × Store
  | 0, st => (.outOfFuel, st)
  | Nat.succ fuel, st =>
    match recvFromIter c pid senderSet block timeout st with
    | .ret r st1 => (r, st1)
    | .again st1 => recvFromLoop c pid senderSet block timeout fuel st1

/-- `Channel.recvFrom` (sender list form; an int sender is the
singleton list). -/
def recvFrom (fuel : Nat) (c ospid : Int) (sender : List Int) (block : Bool)
    (timeout : Int) (st : Store) : RecvResult × Store :=
  match checkCaller c ospid st with
  | .error e => (.pyerr e, st)
  | .ok pid => recvFromLoop c pid sender block timeout fuel st

/-- The candidate keys of one `recvFromAny` iteration: a pair key per
current member other than the caller (the sentinel is not excluded
here) plus the callers wakeup key. -/
def recvFromAnyKeys (c pid : Int) (st : Store) : List RStr :=
  ((membersInts c st).filter (fun i => decide (i ≠ pid))).map
    (fun i => procs2key c i pid) ++ [wakeupKey c pid]

/-- One iteration of the `recvFromAny` while-loop: re-read membership,
remove the caller (`set.remove` raises `KeyError` when absent), then
dispatch on the freshly built candidate keys. -/
def recvFromAnyIter (c pid : Int) (block : Bool) (timeout : Int)
    (st : Store) : IterOut :=
  if pid ∈ membersInts c st then
    recvDispatch c pid (recvFromAnyKeys c pid st) block timeout st
  else .ret (.pyerr .keyError) st

/-- The `recvFromAny` while-loop, driven by fuel. -/
def recvFromAnyLoop (c pid : Int) (block : Bool) (timeout : Int) :
    Nat → Store → RecvResult × Store
  | 0, st => (.outOfFuel, st)
  | Nat.succ fuel, st =>
    match recvFromAnyIter c pid block timeout st with
    | .ret r st1 => (r, st1)
    | .again st1 => recvFromAnyLoop c pid block timeout fuel st1

/-- `Channel.recvFromAny`. -/
def recvFromAny (fuel : Nat) (c ospid : Int) (block : Bool) (timeout : Int)
    (st : Store) : RecvResult × Store :=
  match checkCaller c ospid st with
  | .error e => (.pyerr e, st)
  | .ok pid => recvFromAnyLoop c pid block timeout fuel st

/-! ## Concrete demonstration states

A channel `1`, a first process (OS pid `100`, channel-level id `1`)
and a second (OS pid `200`, channel-level id `2`). -/

/-- The store right after the channel is first created. -/
def demoStore0 : Store := channelInit 1 false emptyStore

/-- After process (OS 100) joins with channel-level id 1. -/
def demoStore1 : Store := (join 1 100 1 demoStore0).2

/-- After process (OS 200) also joins with channel-level id 2. -/
def demoStore2 : Store := (join 1 200 2 demoStore1).2

/-- After the first process broadcasts the message `7`. -/
def demoBroadcast : Store := (sendToAll 1 100 7 demoStore2).2

/-- One call by some OS process (`os.getpid()` is always positive)
against the channel, whatever its arguments and outcome. -/
inductive ChanStep (c : Int) : Store → Store → Prop where
  | joinStep (ospid newpid : Int) (st : Store) (h : 0 < ospid) :
      ChanStep c st (join c ospid newpid st).2
  | leaveStep (ospid : Int) (st : Store) (h : 0 < ospid) :
      ChanStep c st (leave c ospid st).2
  | sendToStep (ospid : Int) (dest : List Int) (m : Int) (st : Store)
      (h : 0 < ospid) : ChanStep c st (sendTo c ospid dest m st).2
  | sendToAllStep (ospid m : Int) (st : Store) (h : 0 < ospid) :
      ChanStep c st (sendToAll c ospid m st).2
  | recvFromStep (fuel : Nat) (ospid : Int) (sender : List Int) (block : Bool)
      (timeout : Int) (st : Store) (h : 0 < ospid) :
      ChanStep c st (recvFrom fuel c ospid sender block timeout st).2
  | recvFromAnyStep (fuel : Nat) (ospid : Int) (block : Bool) (timeout : Int)
      (st : Store) (h : 0 < ospid) :
      ChanStep c st (recvFromAny fuel c ospid block timeout st).2

/-- The stores reachable for channel `c`: its first creation (with or
without `flush`) followed by any sequence of channel calls. -/
inductive Reach (c : Int) : Store → Prop where
  | base (st : Store) (h : c ∉ (st.smembers channelSetKey).map pyIntD) :
      Reach c (channelInit c false st)
  | baseFlush (st : Store) : Reach c (channelInit c true st)
  | step (st st1 : Store) (hr : Reach c st) (hs : ChanStep c st st1) : Reach c st1

lemma digitsRevAux_eq : ∀ fuel n : Nat, n ≤ fuel → digitsRevAux fuel n = Nat.digits 10 n := by
  intro fuel
  induction fuel with
  | zero =>
    intro n h
    interval_cases n
    simp [digitsRevAux]
  | succ fuel ih =>
    intro n h
    rw [digitsRevAux]
    by_cases hn : n = 0
    · subst hn; simp
    · rw [if_neg hn, ih (n / 10) ?hle,
        ← Nat.digits_def' (b := 10) (by norm_num) (Nat.pos_of_ne_zero hn)]
      case hle =>
        have : n / 10 < n := Nat.div_lt_self (Nat.pos_of_ne_zero hn) (by norm_num)
        omega

/-- `natDigitsChars` agrees with the mathematical digit list. -/
lemma natDigitsChars_eq (n : Nat) :
    natDigitsChars n
      = if n = 0 then ['0'] else ((Nat.digits 10 n).map Nat.digitChar).reverse := by
  unfold natDigitsChars
  rw [digitsRevAux_eq n n le_rfl]

lemma digitChar_isDigit {d : Nat} (h : d < 10) :
    isDigitC (Nat.digitChar d) = true := by
  interval_cases d <;> decide

lemma digitChar_digitVal {d : Nat} (h : d < 10) :
    digitVal (Nat.digitChar d) = d := by
  interval_cases d <;> decide

lemma natDigitsChars_ne_nil (n : Nat) : natDigitsChars n ≠ [] := by
  rw [natDigitsChars_eq]
  split
  · simp
  · next h =>
    simp only [ne_eq, List.reverse_eq_nil_iff, List.map_eq_nil_iff]
    exact Nat.digits_ne_nil_iff_ne_zero.mpr h

lemma natDigitsChars_all (n : Nat) : (natDigitsChars n).all isDigitC = true := by
  rw [natDigitsChars_eq]
  split
  · decide
  · next h =>
    simp only [List.all_eq_true, List.mem_reverse, List.mem_map]
    rintro x ⟨d, hd, rfl⟩
    exact digitChar_isDigit (Nat.digits_lt_base (by norm_num) hd)

lemma valOf_natDigitsChars (n : Nat) :
    Nat.ofDigits 10 (((natDigitsChars n).map digitVal).reverse) = n := by
  rw [natDigitsChars_eq]
  split
  · next h => subst h; decide
  · next h =>
    rw [List.map_reverse, List.reverse_reverse, List.map_map]
    have heq : (Nat.digits 10 n).map (digitVal ∘ Nat.digitChar)
        = (Nat.digits 10 n).map id := by
      apply List.map_congr_left
      intro d hd
      exact digitChar_digitVal (Nat.digits_lt_base (by norm_num) hd)
    rw [heq, List.map_id, Nat.ofDigits_digits]

lemma parseNatOf_natDigitsChars (n : Nat) :
    parseNatOf (natDigitsChars n) = some n := by
  unfold parseNatOf
  rw [if_pos ⟨natDigitsChars_ne_nil n, natDigitsChars_all n⟩,
    valOf_natDigitsChars]

lemma parseNatOf_padZ (w n : Nat) :
    parseNatOf (padZ w (natDigitsChars n)) = some n := by
  unfold parseNatOf padZ
  have hne : List.replicate (w - (natDigitsChars n).length) '0' ++ natDigitsChars n ≠ [] := by
    simp [natDigitsChars_ne_nil n]
  have hall : (List.replicate (w - (natDigitsChars n).length) '0' ++ natDigitsChars n).all isDigitC = true := by
    simp only [List.all_eq_true]
    intro x hx
    rcases List.mem_append.mp hx with h1 | h2
    · rcases (List.mem_replicate.mp h1) with ⟨-, rfl⟩; decide
    · exact List.all_eq_true.mp (natDigitsChars_all n) x h2
  rw [if_pos ⟨hne, hall⟩]
  congr 1
  rw [List.map_append, List.reverse_append, Nat.ofDigits_append,
    valOf_natDigitsChars]
  have : (List.replicate (w - (natDigitsChars n).length) '0').map digitVal
      = List.replicate (w - (natDigitsChars n).length) 0 := by
    rw [List.map_replicate]; rfl
  rw [this, List.reverse_replicate]
  have hz : ∀ k : Nat, Nat.ofDigits 10 (List.replicate k 0) = 0 := by
    intro k; induction k with
    | zero => rfl
    | succ k ih => simp [List.replicate_succ, Nat.ofDigits_cons, ih]
  rw [hz]; ring

lemma padZ_all (w : Nat) {s : RStr} (h : s.all isDigitC = true) :
    (padZ w s).all isDigitC = true := by
  unfold padZ
  simp only [List.all_eq_true]
  intro x hx
  rcases List.mem_append.mp hx with h1 | h2
  · rcases (List.mem_replicate.mp h1) with ⟨-, rfl⟩; decide
  · exact List.all_eq_true.mp h x h2

lemma isDigitC_ne_dash {c : Char} (h : isDigitC c = true) : c ≠ '-' := by
  rintro rfl; exact absurd h (by decide)

lemma pyIntOf_of_digits {s : RStr} (hne : s ≠ []) (hall : s.all isDigitC = true) :
    pyIntOf s = (parseNatOf s).map (fun n : Nat => (n : Int)) := by
  match s, hne with
  | c :: rest, _ =>
    have hc : isDigitC c = true :=
      List.all_eq_true.mp hall c (List.mem_cons_self c rest)
    rw [pyIntOf, if_neg (isDigitC_ne_dash hc)]

lemma pyIntOf_format4 {i : Int} (h0 : 0 ≤ i) : pyIntOf (format4 i) = some i := by
  unfold format4
  rw [if_neg (by omega)]
  rw [pyIntOf_of_digits (by simp [padZ, natDigitsChars_ne_nil])
    (padZ_all 4 (natDigitsChars_all _))]
  rw [parseNatOf_padZ]
  simp [Int.natAbs_of_nonneg h0]

lemma pyIntOf_intRepr (i : Int) : pyIntOf (intRepr i) = some i := by
  unfold intRepr
  split
  · next h =>
    rw [pyIntOf, if_pos rfl, parseNatOf_natDigitsChars]
    simp only [Option.map_some']
    congr 1
    omega
  · next h =>
    rw [pyIntOf_of_digits (natDigitsChars_ne_nil _) (natDigitsChars_all _),
      parseNatOf_natDigitsChars]
    simp only [Option.map_some']
    congr 1
    omega

lemma pyIntD_intRepr (i : Int) : pyIntD (intRepr i) = i := by
  simp [pyIntD, pyIntOf_intRepr]

@[simp] lemma intRepr_inj {a b : Int} : intRepr a = intRepr b ↔ a = b := by
  constructor
  · intro h
    have := pyIntOf_intRepr a
    rw [h, pyIntOf_intRepr] at this
    exact (Option.some_inj.mp this).symm
  · rintro rfl; rfl

lemma pyIntD_format4 {i : Int} (h0 : 0 ≤ i) : pyIntD (format4 i) = i := by
  simp [pyIntD, pyIntOf_format4 h0]

lemma format4_inj {a b : Int} (ha : 0 ≤ a) (hb : 0 ≤ b)
    (h : format4 a = format4 b) : a = b := by
  have := pyIntOf_format4 ha
  rw [h, pyIntOf_format4 hb] at this
  exact (Option.some_inj.mp this).symm

lemma natDigitsChars_length_le {n : Nat} (h : n ≤ 9999) :
    (natDigitsChars n).length ≤ 4 := by
  rw [natDigitsChars_eq]
  split
  · simp
  · next hn =>
    rw [List.length_reverse, List.length_map]
    rw [Nat.digits_len 10 n (by norm_num) hn]
    have : Nat.log 10 n < 4 := Nat.log_lt_of_lt_pow hn (by omega)
    omega

lemma format4_length {i : Int} (h0 : 0 ≤ i) (h1 : i ≤ 9999) :
    (format4 i).length = 4 := by
  unfold format4
  rw [if_neg (by omega)]
  unfold padZ
  rw [List.length_append, List.length_replicate]
  have : (natDigitsChars i.natAbs).length ≤ 4 :=
    natDigitsChars_length_le (by omega)
  omega

lemma format4_head {i : Int} (h0 : 0 ≤ i) (h1 : i ≤ 9999) :
    ∃ c rest, format4 i = c :: rest ∧ isDigitC c = true := by
  have hall : (format4 i).all isDigitC = true := by
    unfold format4
    rw [if_neg (by omega)]
    exact padZ_all 4 (natDigitsChars_all _)
  have hlen := format4_length h0 h1
  match hfi : format4 i with
  | [] => rw [hfi] at hlen; simp at hlen
  | c :: rest =>
    rw [hfi] at hall
    exact ⟨c, rest, rfl, List.all_eq_true.mp hall c (List.mem_cons_self c rest)⟩

lemma channelKey_length {c : Int} (h0 : 0 ≤ c) (h1 : c ≤ 9999) :
    (channelKey c).length = 5 := by
  simp [channelKey, format4_length h0 h1]

lemma in_range_slices {c s r : Int} (hc0 : 0 ≤ c) (hc1 : c ≤ 9999)
    (hs0 : 0 ≤ s) (hs1 : s ≤ 9999) (hr0 : 0 ≤ r) (hr1 : r ≤ 9999) :
    ((procs2key c s r).drop 5).take 4 = format4 s ∧
    ((procs2key c s r).drop 9).take 4 = format4 r ∧
    ((procs2key c s r).drop 1).take 4 = format4 c := by
  have hlc := channelKey_length hc0 hc1
  have hls := format4_length hs0 hs1
  have hlr := format4_length hr0 hr1
  unfold procs2key
  refine ⟨?_, ?_, ?_⟩
  · rw [List.append_assoc, ← hlc, List.drop_left, ← hls, List.take_left]
  · have h9 : (9 : Nat) = (channelKey c ++ format4 s).length := by
      rw [List.length_append, hlc, hls]
    rw [h9, List.drop_left, ← hlr, List.take_length]
  · show ((('C' :: format4 c) ++ format4 s ++ format4 r).drop 1).take 4 = format4 c
    rw [List.append_assoc, List.cons_append, List.drop_succ_cons, List.drop_zero,
      ← format4_length hc0 hc1, List.take_left]

/-- Decode is a left inverse of encode on 4-digit ids. -/
lemma key2procs_procs2key {c s r : Int} (hc0 : 0 ≤ c) (hc1 : c ≤ 9999)
    (hs0 : 0 ≤ s) (hs1 : s ≤ 9999) (hr0 : 0 ≤ r) (hr1 : r ≤ 9999) :
    key2procs (procs2key c s r) = some (s, r) := by
  obtain ⟨h1, h2, -⟩ := in_range_slices hc0 hc1 hs0 hs1 hr0 hr1
  unfold key2procs
  rw [h1, h2, pyIntOf_format4 hs0, pyIntOf_format4 hr0]

/-- Encode is injective per (channel, sender, receiver) triple. -/
lemma procs2key_inj {c s r c' s' r' : Int}
    (hc0 : 0 ≤ c) (hc1 : c ≤ 9999) (hs0 : 0 ≤ s) (hs1 : s ≤ 9999)
    (hr0 : 0 ≤ r) (hr1 : r ≤ 9999)
    (hc0' : 0 ≤ c') (hc1' : c' ≤ 9999) (hs0' : 0 ≤ s') (hs1' : s' ≤ 9999)
    (hr0' : 0 ≤ r') (hr1' : r' ≤ 9999)
    (h : procs2key c s r = procs2key c' s' r') : c = c' ∧ s = s' ∧ r = r' := by
  obtain ⟨ha1, ha2, ha3⟩ := in_range_slices hc0 hc1 hs0 hs1 hr0 hr1
  obtain ⟨hb1, hb2, hb3⟩ := in_range_slices hc0' hc1' hs0' hs1' hr0' hr1'
  rw [h] at ha1 ha2 ha3
  refine ⟨format4_inj hc0 hc0' ?_, format4_inj hs0 hs0' ?_, format4_inj hr0 hr0' ?_⟩
  · rw [← ha3, hb3]
  · rw [← ha1, hb1]
  · rw [← ha2, hb2]

/-- Same-channel pair keys determine the (sender, receiver) pair. -/
lemma procs2key_inj_pair {c s r s' r' : Int}
    (hc0 : 0 ≤ c) (hc1 : c ≤ 9999) (hs0 : 0 ≤ s) (hs1 : s ≤ 9999)
    (hr0 : 0 ≤ r) (hr1 : r ≤ 9999) (hs0' : 0 ≤ s') (hs1' : s' ≤ 9999)
    (hr0' : 0 ≤ r') (hr1' : r' ≤ 9999) :
    procs2key c s r = procs2key c s' r' ↔ (s = s' ∧ r = r') := by
  constructor
  · intro h
    exact (procs2key_inj hc0 hc1 hs0 hs1 hr0 hr1 hc0 hc1 hs0' hs1' hr0' hr1' h).2
  · rintro ⟨rfl, rfl⟩; rfl

/-- The first character of any `format4` output is a digit or the
minus sign. -/
lemma format4_head_any (i : Int) :
    ∃ c0 t0, format4 i = c0 :: t0 ∧ (isDigitC c0 = true ∨ c0 = '-') := by
  unfold format4
  split
  · exact ⟨'-', _, rfl, Or.inr rfl⟩
  · unfold padZ
    cases hrep : 4 - (natDigitsChars i.natAbs).length with
    | zero =>
      obtain ⟨c0, t0, hnd⟩ : ∃ c0 t0, natDigitsChars i.natAbs = c0 :: t0 := by
        match hnd : natDigitsChars i.natAbs with
        | [] => exact absurd hnd (natDigitsChars_ne_nil _)
        | c0 :: t0 => exact ⟨c0, t0, rfl⟩
      refine ⟨c0, t0, by simp [hnd], Or.inl ?_⟩
      have hall := natDigitsChars_all i.natAbs
      rw [hnd] at hall
      exact List.all_eq_true.mp hall c0 (List.mem_cons_self c0 t0)
    | succ k =>
      exact ⟨'0', _, by rw [List.replicate_succ]; rfl, Or.inl (by decide)⟩

lemma procs2key_ne_of_suffix {c s r : Int} {t : RStr}
    (ht : ∀ c0 t0, t = c0 :: t0 → isDigitC c0 = false ∧ c0 ≠ '-') :
    procs2key c s r ≠ channelKey c ++ t := by
  intro h
  unfold procs2key at h
  rw [List.append_assoc] at h
  have h2 : format4 s ++ format4 r = t := List.append_cancel_left h
  obtain ⟨c0, t0, hcons, hd⟩ := format4_head_any s
  rw [hcons] at h2
  obtain ⟨hfd, hnd⟩ := ht c0 (t0 ++ format4 r) h2.symm
  cases hd with
  | inl hdig => rw [hfd] at hdig; exact Bool.noConfusion hdig
  | inr hdash => exact hnd hdash

/-- A pair key is never the wakeup key of any process. -/
lemma procs2key_ne_wakeupKey (c s r i : Int) : procs2key c s r ≠ wakeupKey c i := by
  have hw : wakeupKey c i = channelKey c ++ ('W' :: ('O' :: ('S' :: intRepr i))) := by
    simp [wakeupKey, wakeOnSend]
  rw [hw]
  apply procs2key_ne_of_suffix
  intro c0 t0 h
  cases h
  exact ⟨by decide, by decide⟩

/-- A pair key is never the key of the bytes-rendered wakeup queue. -/
lemma procs2key_ne_wakeupKeyBytes (c s r : Int) (t : RStr) :
    procs2key c s r ≠ wakeupKeyBytes c t := by
  have hw : wakeupKeyBytes c t
      = channelKey c ++ ('W' :: ('O' :: ('S' :: pyBytesStr t))) := by
    simp [wakeupKeyBytes, wakeOnSend]
  rw [hw]
  apply procs2key_ne_of_suffix
  intro c0 t0 h
  cases h
  exact ⟨by decide, by decide⟩

/-- A pair key is never the members-set key. -/
lemma procs2key_ne_membersID (c s r : Int) : procs2key c s r ≠ membersID c := by
  apply procs2key_ne_of_suffix
  intro c0 t0 h
  cases h
  exact ⟨by decide, by decide⟩

/-- A pair key is never the osMembers-hash key. -/
lemma procs2key_ne_osmembersID (c s r : Int) : procs2key c s r ≠ osmembersID c := by
  apply procs2key_ne_of_suffix
  intro c0 t0 h
  cases h
  exact ⟨by decide, by decide⟩

/-- A pair key is never the global channel-set key. -/
lemma procs2key_ne_channelSetKey {c s r : Int} : procs2key c s r ≠ channelSetKey := by
  intro h
  have : ('C' : Char) = 'c' := by
    have := congrArg (fun l => l.headI) h
    simpa [procs2key, channelKey, channelSetKey] using this
  exact absurd this (by decide)

lemma wakeupKey_inj {c i j : Int} : wakeupKey c i = wakeupKey c j ↔ i = j := by
  constructor
  · intro h
    unfold wakeupKey at h
    exact intRepr_inj.mp (List.append_cancel_left h)
  · rintro rfl; rfl

/-- A wakeup key built from an int differs from one built from bytes. -/
lemma wakeupKey_ne_wakeupKeyBytes (c i : Int) (s : RStr) :
    wakeupKey c i ≠ wakeupKeyBytes c s := by
  intro h
  unfold wakeupKey wakeupKeyBytes at h
  have h2 : intRepr i = pyBytesStr s := List.append_cancel_left h
  have hb : ('b' : Char) ∈ intRepr i := by
    rw [h2]; simp [pyBytesStr]
  unfold intRepr at hb
  have hdig : ∀ x ∈ natDigitsChars i.natAbs, isDigitC x = true := by
    intro x hx
    exact List.all_eq_true.mp (natDigitsChars_all _) x hx
  split at hb
  · rcases List.mem_cons.mp hb with h3 | h3
    · exact absurd h3.symm (by decide)
    · have := hdig _ h3; exact absurd this (by decide)
  · have := hdig _ hb; exact absurd this (by decide)

lemma wakeupKey_ne_membersID (c i : Int) : wakeupKey c i ≠ membersID c := by
  intro h
  unfold wakeupKey wakeOnSend membersID at h
  rw [List.append_assoc] at h
  have h2 := List.append_cancel_left h
  rw [List.cons_append] at h2
  injection h2 with h3 _
  exact absurd h3 (by decide)

lemma wakeupKey_ne_osmembersID (c i : Int) : wakeupKey c i ≠ osmembersID c := by
  intro h
  unfold wakeupKey wakeOnSend osmembersID at h
  rw [List.append_assoc] at h
  have h2 := List.append_cancel_left h
  rw [List.cons_append] at h2
  injection h2 with h3 _
  exact absurd h3 (by decide)

lemma wakeupKey_ne_channelSetKey (c i : Int) : wakeupKey c i ≠ channelSetKey := by
  intro h
  have : ('C' : Char) = 'c' := by
    have := congrArg (fun l => l.headI) h
    simpa [wakeupKey, wakeOnSend, channelKey, channelSetKey] using this
  exact absurd this (by decide)

lemma membersID_ne_osmembersID (c : Int) : membersID c ≠ osmembersID c := by
  intro h
  unfold membersID osmembersID at h
  have h2 := List.append_cancel_left h
  injection h2 with h3 _
  exact absurd h3 (by decide)

lemma membersID_ne_channelSetKey (c : Int) : membersID c ≠ channelSetKey := by
  intro h
  have : ('C' : Char) = 'c' := by
    have := congrArg (fun l => l.headI) h
    simpa [membersID, channelKey, channelSetKey] using this
  exact absurd this (by decide)

lemma osmembersID_ne_channelSetKey (c : Int) : osmembersID c ≠ channelSetKey := by
  intro h
  have : ('C' : Char) = 'c' := by
    have := congrArg (fun l => l.headI) h
    simpa [osmembersID, channelKey, channelSetKey] using this
  exact absurd this (by decide)

lemma recvFromLoop_succ (c pid : Int) (senderSet : List Int) (block : Bool)
    (timeout : Int) (fuel : Nat) (st : Store) :
    recvFromLoop c pid senderSet block timeout (fuel + 1) st =
      match recvFromIter c pid senderSet block timeout st with
      | .ret r st1 => (r, st1)
      | .again st1 => recvFromLoop c pid senderSet block timeout fuel st1 := rfl

lemma recvFromAnyLoop_succ (c pid : Int) (block : Bool) (timeout : Int)
    (fuel : Nat) (st : Store) :
    recvFromAnyLoop c pid block timeout (fuel + 1) st =
      match recvFromAnyIter c pid block timeout st with
      | .ret r st1 => (r, st1)
      | .again st1 => recvFromAnyLoop c pid block timeout fuel st1 := rfl

/-! ## Store toolkit -/

lemma upd_self {α : Type} (f : RStr → α) (k : RStr) (v : α) : upd f k v k = v :=
  if_pos rfl

lemma upd_ne {α : Type} (f : RStr → α) (k : RStr) (v : α) {x : RStr}
    (h : x ≠ k) : upd f k v x = f x := if_neg h

lemma sadd_sets_new {st : Store} {k v : RStr} (h : v ∉ st.sets k) :
    (st.sadd k v).sets = upd st.sets k (st.sets k ++ [v]) := by
  unfold Store.sadd
  rw [if_neg h]

lemma sadd_of_mem {st : Store} {k v : RStr} (h : v ∈ st.sets k) :
    st.sadd k v = st := by
  unfold Store.sadd
  rw [if_pos h]

lemma sadd_hashes (st : Store) (k v : RStr) : (st.sadd k v).hashes = st.hashes := by
  unfold Store.sadd; split <;> rfl

lemma sadd_queues (st : Store) (k v : RStr) : (st.sadd k v).queues = st.queues := by
  unfold Store.sadd; split <;> rfl

lemma sadd_sets_mono {st : Store} {k v x w : RStr} (h : x ∈ st.sets w) :
    x ∈ (st.sadd k v).sets w := by
  unfold Store.sadd
  split
  · exact h
  · show x ∈ upd st.sets k (st.sets k ++ [v]) w
    unfold upd
    split
    · next he => subst he; exact List.mem_append_left _ h
    · exact h

lemma hset_sets (st : Store) (k f v : RStr) : (st.hset k f v).sets = st.sets := rfl

lemma hset_queues (st : Store) (k f v : RStr) : (st.hset k f v).queues = st.queues := rfl

lemma hset_hashes_new {st : Store} {k f : RStr} (v : RStr)
    (h : ∀ p ∈ st.hashes k, p.1 ≠ f) :
    (st.hset k f v).hashes = upd st.hashes k (st.hashes k ++ [(f, v)]) := by
  unfold Store.hset
  have : (st.hashes k).any (fun p => decide (p.1 = f)) = false := by
    simp only [List.any_eq_false]
    intro p hp
    simpa using h p hp
  rw [this]
  simp

lemma hset_hashes_mem {st : Store} {k f v : RStr} {q : RStr × RStr}
    (hq : q ∈ st.hashes k) (hne : q.1 ≠ f) :
    q ∈ (st.hset k f v).hashes k := by
  show q ∈ upd st.hashes k _ k
  rw [upd_self]
  split
  · next =>
    refine List.mem_map.mpr ⟨q, hq, ?_⟩
    rw [if_neg hne]
  · exact List.mem_append_left _ hq

lemma hdel_sets (st : Store) (k f : RStr) : (st.hdel k f).sets = st.sets := rfl

lemma hdel_queues (st : Store) (k f : RStr) : (st.hdel k f).queues = st.queues := rfl

lemma hdel_hashes_mem {st : Store} {k f : RStr} {q : RStr × RStr}
    (hq : q ∈ st.hashes k) (hne : q.1 ≠ f) :
    q ∈ (st.hdel k f).hashes k := by
  show q ∈ upd st.hashes k _ k
  rw [upd_self]
  exact List.mem_filter.mpr ⟨hq, by simpa using hne⟩

lemma rpush_queues (st : Store) (k : RStr) (v : Val) :
    (st.rpush k v).queues = upd st.queues k (st.queues k ++ [v]) := rfl

lemma rpush_sets (st : Store) (k : RStr) (v : Val) : (st.rpush k v).sets = st.sets := rfl

lemma rpush_hashes (st : Store) (k : RStr) (v : Val) :
    (st.rpush k v).hashes = st.hashes := rfl

lemma blpop_sets_hashes (st : Store) :
    ∀ keys k v st1, st.blpop keys = some (k, v, st1) →
      st1.sets = st.sets ∧ st1.hashes = st.hashes := by
  intro keys
  induction keys with
  | nil => intro k v st1 h; exact absurd h (by simp [Store.blpop])
  | cons key rest ih =>
    intro k v st1 h
    rw [Store.blpop] at h
    revert h
    match hq : st.queues key with
    | [] =>
      intro h
      exact ih k v st1 h
    | w :: ws =>
      intro h
      cases h
      exact ⟨rfl, rfl⟩

lemma blpop_none_iff (st : Store) :
    ∀ keys, st.blpop keys = none ↔ ∀ k ∈ keys, st.queues k = [] := by
  intro keys
  induction keys with
  | nil => simp [Store.blpop]
  | cons key rest ih =>
    rw [Store.blpop]
    constructor
    · intro h k hk
      revert h
      match hq : st.queues key with
      | [] =>
        intro h
        rcases List.mem_cons.mp hk with rfl | hk2
        · exact hq
        · exact (ih.mp h) k hk2
      | w :: ws => intro h; cases h
    · intro h
      have hkey := h key (List.mem_cons_self key rest)
      rw [hkey]
      exact ih.mpr (fun k hk => h k (List.mem_cons.mpr (Or.inr hk)))

lemma sadd_sets_ne {st : Store} {k v x : RStr} (h : x ≠ k) :
    (st.sadd k v).sets x = st.sets x := by
  unfold Store.sadd
  split
  · rfl
  · exact upd_ne _ _ _ h

lemma hset_hashes_ne {st : Store} {k f v x : RStr} (h : x ≠ k) :
    (st.hset k f v).hashes x = st.hashes x := upd_ne _ _ _ h

lemma hdel_hashes_ne {st : Store} {k f x : RStr} (h : x ≠ k) :
    (st.hdel k f).hashes x = st.hashes x := upd_ne _ _ _ h

lemma rpush_queues_ne {st : Store} {k x : RStr} {v : Val} (h : x ≠ k) :
    (st.rpush k v).queues x = st.queues x := upd_ne _ _ _ h

lemma rpush_queues_self (st : Store) (k : RStr) (v : Val) :
    (st.rpush k v).queues k = st.queues k ++ [v] := upd_self _ _ _

/-! ### Frame lemmas: which namespaces each operation can touch -/

lemma channelInit_queues (c : Int) (st0 : Store) :
    (channelInit c false st0).queues = st0.queues := by
  show (if c ∈ (st0.smembers channelSetKey).map pyIntD then st0
    else ((st0.saddI channelSetKey c).hsetI (osmembersID c) (-1) (-1)).saddI
      (membersID c) 9999).queues = st0.queues
  split
  · rfl
  · unfold Store.saddI Store.hsetI
    rw [sadd_queues, hset_queues, sadd_queues]

lemma channelInit_sets_ne {c : Int} {st0 : Store} {x : RStr}
    (h1 : x ≠ channelSetKey) (h2 : x ≠ membersID c) :
    (channelInit c false st0).sets x = st0.sets x := by
  show (if c ∈ (st0.smembers channelSetKey).map pyIntD then st0
    else ((st0.saddI channelSetKey c).hsetI (osmembersID c) (-1) (-1)).saddI
      (membersID c) 9999).sets x = st0.sets x
  split
  · rfl
  · unfold Store.saddI Store.hsetI
    rw [sadd_sets_ne h2, hset_sets, sadd_sets_ne h1]

lemma channelInit_hashes_ne {c : Int} {st0 : Store} {x : RStr}
    (h : x ≠ osmembersID c) :
    (channelInit c false st0).hashes x = st0.hashes x := by
  show (if c ∈ (st0.smembers channelSetKey).map pyIntD then st0
    else ((st0.saddI channelSetKey c).hsetI (osmembersID c) (-1) (-1)).saddI
      (membersID c) 9999).hashes x = st0.hashes x
  split
  · rfl
  · unfold Store.saddI Store.hsetI
    rw [sadd_hashes, hset_hashes_ne h, sadd_hashes]

lemma join_queues (c o p : Int) (st : Store) :
    (join c o p st).2.queues = st.queues := by
  simp only [join]
  split
  · rfl
  · split
    · rfl
    · have hq : ((st.hsetI (osmembersID c) o p).saddI (membersID c) p).queues
          = st.queues := by
        unfold Store.saddI Store.hsetI
        rw [sadd_queues, hset_queues]
      cases checkCaller c o ((st.hsetI (osmembersID c) o p).saddI (membersID c) p) <;>
        exact hq

lemma join_sets_ne {c o p : Int} {st : Store} {x : RStr} (h : x ≠ membersID c) :
    (join c o p st).2.sets x = st.sets x := by
  simp only [join]
  split
  · rfl
  · split
    · rfl
    · have hq : ((st.hsetI (osmembersID c) o p).saddI (membersID c) p).sets x
          = st.sets x := by
        unfold Store.saddI Store.hsetI
        rw [sadd_sets_ne h, hset_sets]
      cases checkCaller c o ((st.hsetI (osmembersID c) o p).saddI (membersID c) p) <;>
        exact hq

lemma join_hashes_ne {c o p : Int} {st : Store} {x : RStr} (h : x ≠ osmembersID c) :
    (join c o p st).2.hashes x = st.hashes x := by
  simp only [join]
  split
  · rfl
  · split
    · rfl
    · have hq : ((st.hsetI (osmembersID c) o p).saddI (membersID c) p).hashes x
          = st.hashes x := by
        unfold Store.saddI Store.hsetI
        rw [sadd_hashes, hset_hashes_ne h]
      cases checkCaller c o ((st.hsetI (osmembersID c) o p).saddI (membersID c) p) <;>
        exact hq

lemma leave_sets (c o : Int) (st : Store) : (leave c o st).2.sets = st.sets := by
  unfold leave
  cases checkCaller c o st <;> rfl

lemma leave_queues (c o : Int) (st : Store) : (leave c o st).2.queues = st.queues := by
  unfold leave
  cases checkCaller c o st <;> rfl

lemma leave_hashes_ne {c o : Int} {st : Store} {x : RStr} (h : x ≠ osmembersID c) :
    (leave c o st).2.hashes x = st.hashes x := by
  unfold leave
  cases checkCaller c o st with
  | error e => rfl
  | ok q =>
    show (st.hdelI (osmembersID c) o).hashes x = st.hashes x
    exact hdel_hashes_ne h

lemma sendToLoop_sets_hashes (c pid m : Int) :
    ∀ (dest : List Int) (st : Store),
      (sendToLoop c pid m dest st).2.sets = st.sets ∧
      (sendToLoop c pid m dest st).2.hashes = st.hashes := by
  intro dest
  induction dest with
  | nil => intro st; exact ⟨rfl, rfl⟩
  | cons i rest ih =>
    intro st
    rw [sendToLoop]
    split
    · exact ih
        ((st.rpush (procs2key c pid i) (.payload m)).rpush (wakeupKey c i) .wakeupMark)
    · exact ⟨rfl, rfl⟩

lemma sendTo_sets_hashes (c o : Int) (dest : List Int) (m : Int) (st : Store) :
    (sendTo c o dest m st).2.sets = st.sets ∧
    (sendTo c o dest m st).2.hashes = st.hashes := by
  unfold sendTo
  cases checkCaller c o st with
  | error e => exact ⟨rfl, rfl⟩
  | ok pid => exact sendToLoop_sets_hashes c pid m dest st

lemma sendToAllLoop_sets_hashes (c pid m : Int) :
    ∀ (dest : List RStr) (st : Store),
      (sendToAllLoop c pid m dest st).sets = st.sets ∧
      (sendToAllLoop c pid m dest st).hashes = st.hashes := by
  intro dest
  induction dest with
  | nil => intro st; exact ⟨rfl, rfl⟩
  | cons i rest ih =>
    intro st
    rw [sendToAllLoop]
    split
    · exact ih st
    · obtain ⟨h1, h2⟩ := ih
        ((st.rpush (procs2key c pid (pyIntD i)) (.payload m)).rpush
          (wakeupKeyBytes c i) .wakeupMark)
      exact ⟨h1, h2⟩

lemma sendToAll_sets_hashes (c o m : Int) (st : Store) :
    (sendToAll c o m st).2.sets = st.sets ∧
    (sendToAll c o m st).2.hashes = st.hashes := by
  unfold sendToAll
  cases checkCaller c o st with
  | error e => exact ⟨rfl, rfl⟩
  | ok pid => exact sendToAllLoop_sets_hashes c pid m (st.smembers (membersID c)) st

lemma recvDispatch_frame (c pid : Int) (keys : List RStr) (block : Bool)
    (timeout : Int) (st : Store) :
    (∀ r st1, recvDispatch c pid keys block timeout st = .ret r st1 →
      st1.sets = st.sets ∧ st1.hashes = st.hashes) ∧
    (∀ st1, recvDispatch c pid keys block timeout st = .again st1 →
      st1.sets = st.sets ∧ st1.hashes = st.hashes) := by
  unfold recvDispatch
  split
  · constructor
    · intro r st1 h
      cases h
      exact ⟨rfl, rfl⟩
    · intro st1 h
      cases h
  · cases hbl : st.blpop keys with
    | none =>
      constructor
      · intro r st1 h
        simp only at h
        split at h <;> (cases h; exact ⟨rfl, rfl⟩)
      · intro st1 h
        simp only at h
        split at h <;> cases h
    | some trip =>
      obtain ⟨k, v, st2⟩ := trip
      have hfr := blpop_sets_hashes st keys k v st2 hbl
      by_cases hwk : k = wakeupKey c pid
      · constructor
        · intro r st1 h
          simp only [if_neg (by simp [hwk] : ¬ k ≠ wakeupKey c pid)] at h
          cases h
        · intro st1 h
          simp only [if_neg (by simp [hwk] : ¬ k ≠ wakeupKey c pid)] at h
          cases h
          exact hfr
      · constructor
        · intro r st1 h
          simp only [if_pos hwk] at h
          cases hk2 : key2procs k with
          | none =>
            rw [hk2] at h
            cases h
            exact hfr
          | some pr =>
            obtain ⟨s0, r0⟩ := pr
            rw [hk2] at h
            cases v with
            | payload m =>
              cases h
              exact hfr
            | wakeupMark =>
              cases h
              exact hfr
        · intro st1 h
          simp only [if_pos hwk] at h
          cases hk2 : key2procs k with
          | none =>
            rw [hk2] at h
            cases h
          | some pr =>
            obtain ⟨s0, r0⟩ := pr
            rw [hk2] at h
            cases v <;> cases h

lemma sadd_sets_self_new {st : Store} {k v : RStr} (h : v ∉ st.sets k) :
    (st.sadd k v).sets k = st.sets k ++ [v] := by
  unfold Store.sadd
  rw [if_neg h]
  exact upd_self _ _ _

lemma lookup_cons_ne {β : Type} {a k : Int} {v : β} {l : List (Int × β)}
    (h : a ≠ k) : List.lookup a ((k, v) :: l) = List.lookup a l := by
  have hbeq : (a == k) = false := beq_eq_false_iff_ne.mpr h
  simp [List.lookup, hbeq]

lemma lookup_cons_self {β : Type} (a : Int) (v : β) (l : List (Int × β)) :
    List.lookup a ((a, v) :: l) = some v := by
  simp [List.lookup]

lemma lookup_none_of_forall {β : Type} {l : List (Int × β)} {a : Int}
    (h : ∀ p ∈ l, p.1 ≠ a) : List.lookup a l = none := by
  induction l with
  | nil => rfl
  | cons p rest ih =>
    obtain ⟨k, v⟩ := p
    rw [lookup_cons_ne (fun he => h (k, v) (List.mem_cons_self _ _) he.symm)]
    exact ih (fun q hq => h q (List.mem_cons.mpr (Or.inr hq)))

/-- The store contents right after a fresh channel is created on an
empty store. -/
lemma channelInit_empty_eq (c : Int) :
    channelInit c false emptyStore
      = ((emptyStore.saddI channelSetKey c).hsetI (osmembersID c) (-1) (-1)).saddI
        (membersID c) 9999 := by
  show (if c ∈ (emptyStore.smembers channelSetKey).map pyIntD then emptyStore
    else ((emptyStore.saddI channelSetKey c).hsetI (osmembersID c) (-1) (-1)).saddI
      (membersID c) 9999)
    = ((emptyStore.saddI channelSetKey c).hsetI (osmembersID c) (-1) (-1)).saddI
      (membersID c) 9999
  rw [if_neg (by simp [emptyStore, Store.smembers])]

lemma channelInit_empty_content (c : Int) :
    (channelInit c false emptyStore).sets (membersID c) = [intRepr 9999] ∧
    (channelInit c false emptyStore).sets channelSetKey = [intRepr c] ∧
    (channelInit c false emptyStore).hashes (osmembersID c)
      = [(intRepr (-1), intRepr (-1))] ∧
    (∀ x, x ≠ membersID c → x ≠ channelSetKey →
      (channelInit c false emptyStore).sets x = []) ∧
    (∀ x, x ≠ osmembersID c → (channelInit c false emptyStore).hashes x = []) ∧
    (∀ x, (channelInit c false emptyStore).queues x = []) := by
  rw [channelInit_empty_eq]
  have hcs : (emptyStore.saddI channelSetKey c).sets channelSetKey = [intRepr c] := by
    unfold Store.saddI
    rw [sadd_sets_self_new (by simp [emptyStore])]
    rfl
  refine ⟨?_, ?_, ?_, ?_, ?_, ?_⟩
  · unfold Store.saddI Store.hsetI
    rw [sadd_sets_self_new]
    · rw [hset_sets, sadd_sets_ne (membersID_ne_channelSetKey c)]
      rfl
    · rw [hset_sets, sadd_sets_ne (membersID_ne_channelSetKey c)]
      simp [emptyStore]
  · unfold Store.saddI Store.hsetI
    rw [sadd_sets_ne (fun h => membersID_ne_channelSetKey c h.symm), hset_sets]
    exact hcs
  · unfold Store.saddI Store.hsetI
    rw [sadd_hashes, hset_hashes_new _ (by simp [emptyStore, Store.saddI, Store.sadd, upd])]
    rw [upd_self]
    simp [emptyStore, Store.saddI, Store.sadd, upd]
  · intro x hx1 hx2
    unfold Store.saddI Store.hsetI
    rw [sadd_sets_ne hx1, hset_sets, sadd_sets_ne hx2]
    rfl
  · intro x hx
    unfold Store.saddI Store.hsetI
    rw [sadd_hashes, hset_hashes_ne hx, sadd_hashes]
    rfl
  · intro x
    unfold Store.saddI Store.hsetI
    rw [sadd_queues, hset_queues, sadd_queues]
    rfl

lemma lookup_append_none {β : Type} {l1 l2 : List (Int × β)} {a : Int}
    (h : List.lookup a l1 = none) : List.lookup a (l1 ++ l2) = List.lookup a l2 := by
  induction l1 with
  | nil => rfl
  | cons q rest ih =>
    obtain ⟨k, v⟩ := q
    by_cases hk : a = k
    · subst hk
      rw [lookup_cons_self] at h
      cases h
    · rw [lookup_cons_ne hk] at h
      rw [List.cons_append, lookup_cons_ne hk]
      exact ih h

/-- A successful `join` and exactly what it writes. -/
lemma join_ok_content (c o p : Int) (st : Store)
    (hpmem : intRepr p ∉ st.sets (membersID c))
    (hfield : ∀ q ∈ st.hashes (osmembersID c), pyIntD q.1 ≠ o) :
    (join c o p st).1 = .ok () ∧
    (join c o p st).2.sets (membersID c) = st.sets (membersID c) ++ [intRepr p] ∧
    (join c o p st).2.hashes (osmembersID c)
      = st.hashes (osmembersID c) ++ [(intRepr o, intRepr p)] ∧
    (join c o p st).2.queues = st.queues ∧
    (∀ x, x ≠ membersID c → (join c o p st).2.sets x = st.sets x) ∧
    (∀ x, x ≠ osmembersID c → (join c o p st).2.hashes x = st.hashes x) := by
  have hfield2 : ∀ q ∈ st.hashes (osmembersID c), q.1 ≠ intRepr o := by
    intro q hq he
    exact hfield q hq (by rw [he, pyIntD_intRepr])
  have hhashes : ((st.hsetI (osmembersID c) o p).saddI (membersID c) p).hashes
      (osmembersID c) = st.hashes (osmembersID c) ++ [(intRepr o, intRepr p)] := by
    unfold Store.saddI Store.hsetI
    rw [sadd_hashes, hset_hashes_new _ hfield2, upd_self]
  have hsets : ((st.hsetI (osmembersID c) o p).saddI (membersID c) p).sets
      (membersID c) = st.sets (membersID c) ++ [intRepr p] := by
    unfold Store.saddI Store.hsetI
    rw [sadd_sets_self_new (by rw [hset_sets]; exact hpmem), hset_sets]
  have hl : (((st.hashes (osmembersID c)).map
      (fun q => (pyIntD q.1, pyIntD q.2))).lookup o) = none := by
    apply lookup_none_of_forall
    intro q hq
    obtain ⟨w, hw, hweq⟩ := List.mem_map.mp hq
    intro he
    apply hfield w hw
    rw [← hweq] at he
    exact he
  have hmem : ((st.hsetI (osmembersID c) o p).saddI (membersID c) p).sismemberI
      (membersID c) p = true := by
    unfold Store.sismemberI
    rw [hsets]
    exact decide_eq_true (List.mem_append_right _ (List.mem_singleton.mpr rfl))
  have hcc : checkCaller c o ((st.hsetI (osmembersID c) o p).saddI (membersID c) p)
      = .ok p := by
    simp only [checkCaller]
    rw [show Store.hgetall ((st.hsetI (osmembersID c) o p).saddI (membersID c) p)
        (osmembersID c)
        = st.hashes (osmembersID c) ++ [(intRepr o, intRepr p)] from hhashes]
    rw [List.map_append, lookup_append_none hl]
    simp only [List.map_cons, List.map_nil, pyIntD_intRepr]
    rw [lookup_cons_self]
    show (if ((st.hsetI (osmembersID c) o p).saddI (membersID c) p).sismemberI
        (membersID c) p = true then Except.ok p
      else Except.error PyErr.assertionFailed) = Except.ok p
    rw [if_pos hmem]
  have hg1 : ¬ ((st.hgetall (osmembersID c)).any (fun q => pyIntEqBytes o q.1)) = true := by
    simp [pyIntEqBytes]
  have hg2 : ¬ ((st.smembers (membersID c)).any (fun s => pyIntEqBytes p s)) = true := by
    simp [pyIntEqBytes]
  have hjoin : join c o p st
      = (.ok (), (st.hsetI (osmembersID c) o p).saddI (membersID c) p) := by
    simp only [join]
    rw [if_neg hg1, if_neg hg2, hcc]
  rw [hjoin]
  refine ⟨rfl, hsets, hhashes, ?_, ?_, ?_⟩
  · show ((st.hsetI (osmembersID c) o p).saddI (membersID c) p).queues = st.queues
    unfold Store.saddI Store.hsetI
    rw [sadd_queues, hset_queues]
  · intro x hx
    show ((st.hsetI (osmembersID c) o p).saddI (membersID c) p).sets x = st.sets x
    unfold Store.saddI Store.hsetI
    rw [sadd_sets_ne hx, hset_sets]
  · intro x hx
    show ((st.hsetI (osmembersID c) o p).saddI (membersID c) p).hashes x = st.hashes x
    unfold Store.saddI Store.hsetI
    rw [sadd_hashes, hset_hashes_ne hx]

/-- `__checkCaller` succeeds as soon as the hash lookup and the set
membership do. -/
lemma checkCaller_ok_of {c o pid : Int} {st : Store}
    (hlookup : (((st.hashes (osmembersID c)).map
      (fun q => (pyIntD q.1, pyIntD q.2))).lookup o) = some pid)
    (hmem : intRepr pid ∈ st.sets (membersID c)) :
    checkCaller c o st = .ok pid := by
  simp only [checkCaller]
  rw [show Store.hgetall st (osmembersID c) = st.hashes (osmembersID c) from rfl,
    hlookup]
  show (if st.sismemberI (membersID c) pid = true then Except.ok pid
    else Except.error PyErr.assertionFailed) = Except.ok pid
  rw [if_pos (by unfold Store.sismemberI; exact decide_eq_true hmem)]

/-- A successful single-destination `sendTo` and exactly what it
pushes (payload on the pair queue first, then the wakeup marker). -/
lemma sendTo_single_ok (c o pid d m : Int) (st : Store)
    (hcc : checkCaller c o st = .ok pid)
    (hdmem : intRepr d ∈ st.sets (membersID c)) :
    sendTo c o [d] m st
      = (.ok (), (st.rpush (procs2key c pid d) (.payload m)).rpush
          (wakeupKey c d) .wakeupMark) := by
  unfold sendTo
  simp only [hcc]
  rw [sendToLoop,
    if_pos (show st.sismemberI (membersID c) d = true by
      unfold Store.sismemberI; exact decide_eq_true hdmem),
    sendToLoop]

/-- One blocking `recvFrom(S)` call by `R` in a three-member channel
whose pair queue `(S, R)` already holds a payload: the head payload is
returned tagged with the decoded sender id. -/
lemma recvFrom_one_step (c o S R m : Int) (st : Store) (rest : List Val)
    (hc0 : 0 ≤ c) (hc1 : c ≤ 9999) (hS0 : 0 ≤ S) (hS1 : S ≤ 9999)
    (hR0 : 0 ≤ R) (hR1 : R ≤ 9999) (hS9 : S ≠ 9999) (hR9 : R ≠ 9999)
    (hcc : checkCaller c o st = .ok R)
    (hmem : st.sets (membersID c) = [intRepr 9999, intRepr S, intRepr R])
    (hq : st.queues (procs2key c S R) = Val.payload m :: rest) :
    recvFrom 1 c o [S] true 0 st
      = (.msg S m,
        { st with queues := upd st.queues (procs2key c S R) rest }) := by
  have hmembers : membersInts c st = [9999, S, R] := by
    unfold membersInts Store.smembers
    rw [hmem]
    simp [pyIntD_intRepr]
  have hfilter : ([9999, S, R] : List Int).filter (fun i => decide (i ≠ 9999))
      = [S, R] := by
    simp [List.filter_cons, hS9, hR9]
  have hall : ([S] : List Int).all (fun i => decide (i ∈ [S, R])) = true := by
    simp
  have hkeys : recvFromKeys c R [S] = [procs2key c S R, wakeupKey c R] := by
    simp [recvFromKeys]
  have hiter : recvFromIter c R [S] true 0 st
      = .ret (.msg S m)
          { st with queues := upd st.queues (procs2key c S R) rest } := by
    simp only [recvFromIter, hmembers]
    rw [if_pos (show (9999 : Int) ∈ [9999, S, R] by simp)]
    rw [hfilter, if_pos hall]
    simp only [recvDispatch, hkeys]
    rw [if_neg (by simp)]
    simp only [Store.blpop, hq]
    rw [if_pos (procs2key_ne_wakeupKey c S R R)]
    rw [key2procs_procs2key hc0 hc1 hS0 hS1 hR0 hR1]
  unfold recvFrom
  simp only [hcc]
  rw [show (1 : Nat) = 0 + 1 from rfl, recvFromLoop_succ, hiter]

lemma blpop_some_nonempty (st : Store) :
    ∀ (keys : List RStr) (k : RStr) (v : Val) (st1 : Store),
      st.blpop keys = some (k, v, st1) → keysExist st keys = true := by
  intro keys
  induction keys with
  | nil => intro k v st1 h; exact absurd h (by simp [Store.blpop])
  | cons key rest ih =>
    intro k v st1 h
    rw [Store.blpop] at h
    unfold keysExist
    rw [List.any_cons]
    revert h
    match hq : st.queues key with
    | [] =>
      intro h
      have := ih k v st1 h
      unfold keysExist at this
      rw [this, Bool.or_true]
    | w :: ws =>
      intro _
      have : st.existsKey key = true := by
        unfold Store.existsKey
        rw [hq]
        simp
      rw [this, Bool.true_or]

/-- When `blpop` fires on a real pair key carrying a payload, the
dispatch step returns the decoded sender and the payload. -/
lemma recvDispatch_fires {c pid S m : Int} {keys : List RStr} {st st1 : Store}
    {block : Bool} {t : Int}
    (hc0 : 0 ≤ c) (hc1 : c ≤ 9999) (hS0 : 0 ≤ S) (hS1 : S ≤ 9999)
    (hp0 : 0 ≤ pid) (hp1 : pid ≤ 9999)
    (hbl : st.blpop keys = some (procs2key c S pid, Val.payload m, st1)) :
    recvDispatch c pid keys block t st = .ret (.msg S m) st1 := by
  unfold recvDispatch
  rw [if_neg (by
    rintro ⟨-, hke⟩
    rw [blpop_some_nonempty st keys _ _ _ hbl] at hke
    cases hke)]
  simp only [hbl]
  rw [if_pos (procs2key_ne_wakeupKey c S pid pid)]
  rw [key2procs_procs2key hc0 hc1 hS0 hS1 hp0 hp1]

/-- When `blpop` fires on the callers own wakeup key, the dispatch
step discards the marker and loops (the marker is never returned as a
message). -/
lemma recvDispatch_wakeup_again {c pid : Int} {keys : List RStr}
    {st st1 : Store} {v : Val} {block : Bool} {t : Int}
    (hbl : st.blpop keys = some (wakeupKey c pid, v, st1)) :
    recvDispatch c pid keys block t st = .again st1 := by
  unfold recvDispatch
  rw [if_neg (by
    rintro ⟨-, hke⟩
    rw [blpop_some_nonempty st keys _ _ _ hbl] at hke
    cases hke)]
  simp only [hbl]
  rw [if_neg (by simp)]

/-- **C1**: point-to-point delivery.  In a channel with members S, R
and a third member T, after S sends `m` to R: a `recvFrom(S)` by R
returns exactly `(S, m)` (sender id decoded from the firing key,
payload deserialized), a `recvFromAny()` by R returns the same, and T
never receives the message: a non-blocking `recvFromAny()` by T
returns no message and a blocking one finds nothing to pop. -/
theorem claim_C1_delivery_to_exactly_the_destination
    (c S R T osS osR osT m : Int)
    (hc0 : 0 ≤ c) (hc1 : c ≤ 9999)
    (hS0 : 0 ≤ S) (hS1 : S < 9999) (hR0 : 0 ≤ R) (hR1 : R < 9999)
    (hT0 : 0 ≤ T) (hT1 : T < 9999)
    (hSR : S ≠ R) (hST : S ≠ T) (hRT : R ≠ T)
    (hosS : 0 < osS) (hosR : 0 < osR) (hosT : 0 < osT)
    (hosSR : osS ≠ osR) (hosST : osS ≠ osT) (hosRT : osR ≠ osT) :
    (join c osS S (channelInit c false emptyStore)).1 = .ok () ∧
    (join c osR R (join c osS S (channelInit c false emptyStore)).2).1 = .ok () ∧
    (join c osT T
      (join c osR R (join c osS S (channelInit c false emptyStore)).2).2).1
      = .ok () ∧
    (sendTo c osS [R] m
      (join c osT T
        (join c osR R (join c osS S (channelInit c false emptyStore)).2).2).2).1
      = .ok () ∧
    (recvFrom 1 c osR [S] true 0
      (sendTo c osS [R] m
        (join c osT T
          (join c osR R
            (join c osS S (channelInit c false emptyStore)).2).2).2).2).1
      = .msg S m ∧
    (recvFromAny 1 c osR true 0
      (sendTo c osS [R] m
        (join c osT T
          (join c osR R
            (join c osS S (channelInit c false emptyStore)).2).2).2).2).1
      = .msg S m ∧
    (recvFromAny 1 c osT false 0
      (sendTo c osS [R] m
        (join c osT T
          (join c osR R
            (join c osS S (channelInit c false emptyStore)).2).2).2).2).1
      = .noMsg ∧
    (recvFromAny 1 c osT true 0
      (sendTo c osS [R] m
        (join c osT T
          (join c osR R
            (join c osS S (channelInit c false emptyStore)).2).2).2).2).1
      = .blockedForever := by
  have hS9 : S ≠ 9999 := by omega
  have hR9 : R ≠ 9999 := by omega
  have hT9 : T ≠ 9999 := by omega
  obtain ⟨h0m, h0c, h0h, h0sx, h0hx, h0q⟩ := channelInit_empty_content c
  obtain ⟨hj1ok, hj1m, hj1h, hj1q, hj1sx, hj1hx⟩ :=
    join_ok_content c osS S (channelInit c false emptyStore)
      (by rw [h0m]
          intro hmem
          rw [List.mem_singleton] at hmem
          exact hS9 (intRepr_inj.mp hmem))
      (by rw [h0h]
          intro q hq
          rw [List.mem_singleton] at hq
          subst hq
          show pyIntD (intRepr (-1)) ≠ osS
          rw [pyIntD_intRepr]
          omega)
  set A1 := (join c osS S (channelInit c false emptyStore)).2 with hA1
  have h1m : A1.sets (membersID c) = [intRepr 9999, intRepr S] := by
    rw [hj1m, h0m]
    rfl
  have h1h : A1.hashes (osmembersID c)
      = [(intRepr (-1), intRepr (-1)), (intRepr osS, intRepr S)] := by
    rw [hj1h, h0h]
    rfl
  have h1q : ∀ x, A1.queues x = [] := by
    intro x
    rw [hj1q]
    exact h0q x
  obtain ⟨hj2ok, hj2m, hj2h, hj2q, hj2sx, hj2hx⟩ :=
    join_ok_content c osR R A1
      (by rw [h1m]
          intro hmem
          rcases List.mem_cons.mp hmem with h | h
          · exact hR9 (intRepr_inj.mp h)
          · rw [List.mem_singleton] at h
            exact hSR (intRepr_inj.mp h).symm)
      (by rw [h1h]
          intro q hq
          rcases List.mem_cons.mp hq with rfl | hq2
          · show pyIntD (intRepr (-1)) ≠ osR
            rw [pyIntD_intRepr]
            omega
          · rw [List.mem_singleton] at hq2
            subst hq2
            show pyIntD (intRepr osS) ≠ osR
            rw [pyIntD_intRepr]
            omega)
  set A2 := (join c osR R A1).2 with hA2
  have h2m : A2.sets (membersID c) = [intRepr 9999, intRepr S, intRepr R] := by
    rw [hj2m, h1m]
    rfl
  have h2h : A2.hashes (osmembersID c)
      = [(intRepr (-1), intRepr (-1)), (intRepr osS, intRepr S),
        (intRepr osR, intRepr R)] := by
    rw [hj2h, h1h]
    rfl
  have h2q : ∀ x, A2.queues x = [] := by
    intro x
    rw [hj2q]
    exact h1q x
  obtain ⟨hj3ok, hj3m, hj3h, hj3q, hj3sx, hj3hx⟩ :=
    join_ok_content c osT T A2
      (by rw [h2m]
          intro hmem
          rcases List.mem_cons.mp hmem with h | h
          · exact hT9 (intRepr_inj.mp h)
          · rcases List.mem_cons.mp h with h2 | h2
            · exact hST (intRepr_inj.mp h2).symm
            · rw [List.mem_singleton] at h2
              exact hRT (intRepr_inj.mp h2).symm)
      (by rw [h2h]
          intro q hq
          rcases List.mem_cons.mp hq with rfl | hq2
          · show pyIntD (intRepr (-1)) ≠ osT
            rw [pyIntD_intRepr]
            omega
          · rcases List.mem_cons.mp hq2 with rfl | hq3
            · show pyIntD (intRepr osS) ≠ osT
              rw [pyIntD_intRepr]
              omega
            · rw [List.mem_singleton] at hq3
              subst hq3
              show pyIntD (intRepr osR) ≠ osT
              rw [pyIntD_intRepr]
              omega)
  set A3 := (join c osT T A2).2 with hA3
  have h3m : A3.sets (membersID c)
      = [intRepr 9999, intRepr S, intRepr R, intRepr T] := by
    rw [hj3m, h2m]
    rfl
  have h3h : A3.hashes (osmembersID c)
      = [(intRepr (-1), intRepr (-1)), (intRepr osS, intRepr S),
        (intRepr osR, intRepr R), (intRepr osT, intRepr T)] := by
    rw [hj3h, h2h]
    rfl
  have h3q : ∀ x, A3.queues x = [] := by
    intro x
    rw [hj3q]
    exact h2q x
  have h3sx : ∀ x, x ≠ membersID c → x ≠ channelSetKey → A3.sets x = [] := by
    intro x hx1 hx2
    rw [hj3sx x hx1, hj2sx x hx1, hj1sx x hx1]
    exact h0sx x hx1 hx2
  have h3hx : ∀ x, x ≠ osmembersID c → A3.hashes x = [] := by
    intro x hx
    rw [hj3hx x hx, hj2hx x hx, hj1hx x hx]
    exact h0hx x hx
  have hccS : checkCaller c osS A3 = .ok S := by
    apply checkCaller_ok_of
    · rw [h3h]
      simp only [List.map_cons, List.map_nil, pyIntD_intRepr]
      rw [lookup_cons_ne (show osS ≠ -1 by omega), lookup_cons_self]
    · rw [h3m]
      simp
  have hsend := sendTo_single_ok c osS S R m A3 hccS (by rw [h3m]; simp)
  set B5 := (A3.rpush (procs2key c S R) (Val.payload m)).rpush
    (wakeupKey c R) Val.wakeupMark with hB5
  have hA5 : (sendTo c osS [R] m A3).2 = B5 := by rw [hsend]
  have hPW : procs2key c S R ≠ wakeupKey c R := procs2key_ne_wakeupKey c S R R
  have hWP : wakeupKey c R ≠ procs2key c S R := fun h => hPW h.symm
  have h5m : B5.sets (membersID c)
      = [intRepr 9999, intRepr S, intRepr R, intRepr T] := h3m
  have h5h : B5.hashes (osmembersID c)
      = [(intRepr (-1), intRepr (-1)), (intRepr osS, intRepr S),
        (intRepr osR, intRepr R), (intRepr osT, intRepr T)] := h3h
  have h5sx : ∀ x, x ≠ membersID c → x ≠ channelSetKey → B5.sets x = [] := h3sx
  have h5hx : ∀ x, x ≠ osmembersID c → B5.hashes x = [] := h3hx
  have hqSR : B5.queues (procs2key c S R) = [Val.payload m] := by
    rw [hB5, rpush_queues_ne hPW, rpush_queues_self, h3q]
    rfl
  have hq5x : ∀ x, x ≠ procs2key c S R → x ≠ wakeupKey c R →
      B5.queues x = [] := by
    intro x hx1 hx2
    rw [hB5, rpush_queues_ne hx2, rpush_queues_ne hx1]
    exact h3q x
  have hmembers : membersInts c B5 = [9999, S, R, T] := by
    unfold membersInts Store.smembers
    rw [show B5.sets (membersID c) = _ from h5m]
    simp [pyIntD_intRepr]
  have hpairne : ∀ x y x' y' : Int, 0 ≤ x → x ≤ 9999 → 0 ≤ y → y ≤ 9999 →
      0 ≤ x' → x' ≤ 9999 → 0 ≤ y' → y' ≤ 9999 → (x ≠ x' ∨ y ≠ y') →
      procs2key c x y ≠ procs2key c x' y' := by
    intro x y x' y' a1 a2 a3 a4 a5 a6 a7 a8 hne h
    obtain ⟨he1, he2⟩ := (procs2key_inj_pair hc0 hc1 a1 a2 a3 a4 a5 a6 a7 a8).mp h
    rcases hne with hne | hne
    · exact hne he1
    · exact hne he2
  have hccR : checkCaller c osR B5 = .ok R := by
    apply checkCaller_ok_of
    · rw [show B5.hashes (osmembersID c) = _ from h5h]
      simp only [List.map_cons, List.map_nil, pyIntD_intRepr]
      rw [lookup_cons_ne (show osR ≠ -1 by omega),
        lookup_cons_ne (show osR ≠ osS from fun h => hosSR h.symm),
        lookup_cons_self]
    · rw [show B5.sets (membersID c) = _ from h5m]
      simp
  have hccT : checkCaller c osT B5 = .ok T := by
    apply checkCaller_ok_of
    · rw [show B5.hashes (osmembersID c) = _ from h5h]
      simp only [List.map_cons, List.map_nil, pyIntD_intRepr]
      rw [lookup_cons_ne (show osT ≠ -1 by omega),
        lookup_cons_ne (show osT ≠ osS from fun h => hosST h.symm),
        lookup_cons_ne (show osT ≠ osR from fun h => hosRT h.symm),
        lookup_cons_self]
    · rw [show B5.sets (membersID c) = _ from h5m]
      simp
  -- (5) recvFrom(S) by R
  have hbl5 : B5.blpop [procs2key c S R, wakeupKey c R]
      = some (procs2key c S R, Val.payload m,
        { B5 with queues := upd B5.queues (procs2key c S R) [] }) := by
    simp only [Store.blpop, hqSR]
  have hiter5 : recvFromIter c R [S] true 0 B5
      = .ret (.msg S m)
        { B5 with queues := upd B5.queues (procs2key c S R) [] } := by
    simp only [recvFromIter, hmembers]
    rw [if_pos (show (9999 : Int) ∈ [9999, S, R, T] by simp)]
    rw [show ([9999, S, R, T] : List Int).filter (fun i => decide (i ≠ 9999))
      = [S, R, T] from by simp [List.filter_cons, hS9, hR9, hT9]]
    rw [if_pos (show ([S] : List Int).all
      (fun i => decide (i ∈ [S, R, T])) = true by simp)]
    rw [show recvFromKeys c R [S] = [procs2key c S R, wakeupKey c R]
      from by simp [recvFromKeys]]
    exact recvDispatch_fires hc0 hc1 hS0 (by omega) hR0 (by omega) hbl5
  -- (6) recvFromAny by R
  have hq9R : B5.queues (procs2key c 9999 R) = [] :=
    hq5x _ (hpairne 9999 R S R (by omega) (by omega) hR0 (by omega) hS0
      (by omega) hR0 (by omega) (Or.inl (by omega)))
      (procs2key_ne_wakeupKey c 9999 R R)
  have hkeysR : recvFromAnyKeys c R B5
      = [procs2key c 9999 R, procs2key c S R, procs2key c T R,
        wakeupKey c R] := by
    unfold recvFromAnyKeys
    rw [hmembers]
    rw [show ([9999, S, R, T] : List Int).filter (fun i => decide (i ≠ R))
      = [9999, S, T] from by
        simp [List.filter_cons, show (9999 : Int) ≠ R by omega,
          show S ≠ R from hSR, show T ≠ R from fun h => hRT h.symm]]
    simp
  have hblR : B5.blpop [procs2key c 9999 R, procs2key c S R, procs2key c T R,
      wakeupKey c R]
      = some (procs2key c S R, Val.payload m,
        { B5 with queues := upd B5.queues (procs2key c S R) [] }) := by
    simp only [Store.blpop, hq9R, hqSR]
  have hiterR : recvFromAnyIter c R true 0 B5
      = .ret (.msg S m)
        { B5 with queues := upd B5.queues (procs2key c S R) [] } := by
    simp only [recvFromAnyIter]
    rw [if_pos (show R ∈ membersInts c B5 from by rw [hmembers]; simp)]
    rw [hkeysR]
    exact recvDispatch_fires hc0 hc1 hS0 (by omega) hR0 (by omega) hblR
  -- (7) and (8): the third member T sees nothing
  have hkeysT : recvFromAnyKeys c T B5
      = [procs2key c 9999 T, procs2key c S T, procs2key c R T,
        wakeupKey c T] := by
    unfold recvFromAnyKeys
    rw [hmembers]
    rw [show ([9999, S, R, T] : List Int).filter (fun i => decide (i ≠ T))
      = [9999, S, R] from by
        simp [List.filter_cons, show (9999 : Int) ≠ T by omega,
          show S ≠ T from hST, show R ≠ T from hRT]]
    simp
  have hqT : ∀ x, x ∈ [procs2key c 9999 T, procs2key c S T, procs2key c R T,
      wakeupKey c T] → B5.queues x = [] := by
    intro x hx
    have hTne : ∀ a : Int, 0 ≤ a → a ≤ 9999 →
        B5.queues (procs2key c a T) = [] := by
      intro a a0 a1
      exact hq5x _
        (hpairne a T S R a0 a1 hT0 (by omega) hS0 (by omega) hR0 (by omega)
          (Or.inr (fun h => hRT h.symm)))
        (procs2key_ne_wakeupKey c a T R)
    rcases List.mem_cons.mp hx with rfl | hx
    · exact hTne 9999 (by omega) (by omega)
    · rcases List.mem_cons.mp hx with rfl | hx
      · exact hTne S hS0 (by omega)
      · rcases List.mem_cons.mp hx with rfl | hx
        · exact hTne R hR0 (by omega)
        · rw [List.mem_singleton] at hx
          subst hx
          exact hq5x _ (fun h => procs2key_ne_wakeupKey c S R T h.symm)
            (fun h => hRT (wakeupKey_inj.mp h).symm)
  have hkeT : keysExist B5 [procs2key c 9999 T, procs2key c S T,
      procs2key c R T, wakeupKey c T] = false := by
    unfold keysExist
    rw [List.any_eq_false]
    intro x hx
    have hq := hqT x hx
    have hs : B5.sets x = [] := by
      rcases List.mem_cons.mp hx with rfl | hx2
      · exact h5sx _ (procs2key_ne_membersID c 9999 T) procs2key_ne_channelSetKey
      · rcases List.mem_cons.mp hx2 with rfl | hx3
        · exact h5sx _ (procs2key_ne_membersID c S T) procs2key_ne_channelSetKey
        · rcases List.mem_cons.mp hx3 with rfl | hx4
          · exact h5sx _ (procs2key_ne_membersID c R T) procs2key_ne_channelSetKey
          · rw [List.mem_singleton] at hx4
            subst hx4
            exact h5sx _ (wakeupKey_ne_membersID c T) (wakeupKey_ne_channelSetKey c T)
    have hh : B5.hashes x = [] := by
      rcases List.mem_cons.mp hx with rfl | hx2
      · exact h5hx _ (procs2key_ne_osmembersID c 9999 T)
      · rcases List.mem_cons.mp hx2 with rfl | hx3
        · exact h5hx _ (procs2key_ne_osmembersID c S T)
        · rcases List.mem_cons.mp hx3 with rfl | hx4
          · exact h5hx _ (procs2key_ne_osmembersID c R T)
          · rw [List.mem_singleton] at hx4
            subst hx4
            exact h5hx _ (wakeupKey_ne_osmembersID c T)
    unfold Store.existsKey
    rw [hq, hs, hh]
    simp
  have hTin : T ∈ membersInts c B5 := by rw [hmembers]; simp
  have hiterT1 : recvFromAnyIter c T false 0 B5 = .ret .noMsg B5 := by
    simp only [recvFromAnyIter]
    rw [if_pos hTin, hkeysT]
    unfold recvDispatch
    rw [if_pos ⟨rfl, hkeT⟩]
  have hblT : B5.blpop [procs2key c 9999 T, procs2key c S T, procs2key c R T,
      wakeupKey c T] = none :=
    (blpop_none_iff B5 _).mpr hqT
  have hiterT2 : recvFromAnyIter c T true 0 B5 = .ret .blockedForever B5 := by
    simp only [recvFromAnyIter]
    rw [if_pos hTin, hkeysT]
    unfold recvDispatch
    rw [if_neg (by rintro ⟨hb, -⟩; cases hb)]
    simp only [hblT]
    simp
  refine ⟨hj1ok, hj2ok, hj3ok, ?_, ?_, ?_, ?_, ?_⟩
  · rw [hsend]
  · rw [hA5]
    unfold recvFrom
    simp only [hccR]
    rw [show (1 : Nat) = 0 + 1 from rfl, recvFromLoop_succ, hiter5]
  · rw [hA5]
    unfold recvFromAny
    simp only [hccR]
    rw [show (1 : Nat) = 0 + 1 from rfl, recvFromAnyLoop_succ, hiterR]
  · rw [hA5]
    unfold recvFromAny
    simp only [hccT]
    rw [show (1 : Nat) = 0 + 1 from rfl, recvFromAnyLoop_succ, hiterT1]
  · rw [hA5]
    unfold recvFromAny
    simp only [hccT]
    rw [show (1 : Nat) = 0 + 1 from rfl, recvFromAnyLoop_succ, hiterT2]

/-- **C2**: spurious wakeups and the stale-candidate race.  Generally,
whenever the key that fires is the callers own wakeup key the popped
marker is never returned as a message: the dispatch step discards it
and loops.  Concretely: R joins alone and computes its candidate keys
(which cannot include the not-yet-joined S); S then joins and sends
`m` to R; a blocking pop on the stale candidate set fires on the
wakeup key and is discarded, and the next loop iteration, recomputing
the candidates from current membership, returns `(S, m)`. -/
theorem claim_C2_wakeup_discard_and_recompute (c S R osS osR m : Int)
    (hc0 : 0 ≤ c) (hc1 : c ≤ 9999)
    (hS0 : 0 ≤ S) (hS1 : S < 9999) (hR0 : 0 ≤ R) (hR1 : R < 9999)
    (hSR : S ≠ R) (hosS : 0 < osS) (hosR : 0 < osR) (hosSR : osS ≠ osR) :
    (∀ (keys : List RStr) (st st1 : Store) (v : Val) (block : Bool) (t : Int),
      st.blpop keys = some (wakeupKey c R, v, st1) →
      recvDispatch c R keys block t st = .again st1) ∧
    (join c osR R (channelInit c false emptyStore)).1 = .ok () ∧
    recvFromAnyKeys c R (join c osR R (channelInit c false emptyStore)).2
      = [procs2key c 9999 R, wakeupKey c R] ∧
    (join c osS S (join c osR R (channelInit c false emptyStore)).2).1
      = .ok () ∧
    (sendTo c osS [R] m
      (join c osS S (join c osR R (channelInit c false emptyStore)).2).2).1
      = .ok () ∧
    recvDispatch c R
      (recvFromAnyKeys c R (join c osR R (channelInit c false emptyStore)).2)
      true 0
      (sendTo c osS [R] m
        (join c osS S (join c osR R (channelInit c false emptyStore)).2).2).2
      = .again
        { (sendTo c osS [R] m
            (join c osS S
              (join c osR R (channelInit c false emptyStore)).2).2).2 with
          queues := upd
            (sendTo c osS [R] m
              (join c osS S
                (join c osR R (channelInit c false emptyStore)).2).2).2.queues
            (wakeupKey c R) [] } ∧
    (recvFromAnyLoop c R true 0 1
      { (sendTo c osS [R] m
          (join c osS S
            (join c osR R (channelInit c false emptyStore)).2).2).2 with
        queues := upd
          (sendTo c osS [R] m
            (join c osS S
              (join c osR R (channelInit c false emptyStore)).2).2).2.queues
          (wakeupKey c R) [] }).1 = .msg S m := by
  have hS9 : S ≠ 9999 := by omega
  have hR9 : R ≠ 9999 := by omega
  obtain ⟨h0m, h0c, h0h, h0sx, h0hx, h0q⟩ := channelInit_empty_content c
  obtain ⟨hj1ok, hj1m, hj1h, hj1q, hj1sx, hj1hx⟩ :=
    join_ok_content c osR R (channelInit c false emptyStore)
      (by rw [h0m]
          intro hmem
          rw [List.mem_singleton] at hmem
          exact hR9 (intRepr_inj.mp hmem))
      (by rw [h0h]
          intro q hq
          rw [List.mem_singleton] at hq
          subst hq
          show pyIntD (intRepr (-1)) ≠ osR
          rw [pyIntD_intRepr]
          omega)
  set A1 := (join c osR R (channelInit c false emptyStore)).2 with hA1
  have h1m : A1.sets (membersID c) = [intRepr 9999, intRepr R] := by
    rw [hj1m, h0m]
    rfl
  have h1h : A1.hashes (osmembersID c)
      = [(intRepr (-1), intRepr (-1)), (intRepr osR, intRepr R)] := by
    rw [hj1h, h0h]
    rfl
  have h1q : ∀ x, A1.queues x = [] := by
    intro x
    rw [hj1q]
    exact h0q x
  have hstale : recvFromAnyKeys c R A1
      = [procs2key c 9999 R, wakeupKey c R] := by
    unfold recvFromAnyKeys
    rw [show membersInts c A1 = [9999, R] from by
      unfold membersInts Store.smembers
      rw [h1m]
      simp [pyIntD_intRepr]]
    rw [show ([9999, R] : List Int).filter (fun i => decide (i ≠ R))
      = [9999] from by
        simp [List.filter_cons, show (9999 : Int) ≠ R by omega]]
    simp
  obtain ⟨hj2ok, hj2m, hj2h, hj2q, hj2sx, hj2hx⟩ :=
    join_ok_content c osS S A1
      (by rw [h1m]
          intro hmem
          rcases List.mem_cons.mp hmem with h | h
          · exact hS9 (intRepr_inj.mp h)
          · rw [List.mem_singleton] at h
            exact hSR (intRepr_inj.mp h))
      (by rw [h1h]
          intro q hq
          rcases List.mem_cons.mp hq with rfl | hq2
          · show pyIntD (intRepr (-1)) ≠ osS
            rw [pyIntD_intRepr]
            omega
          · rw [List.mem_singleton] at hq2
            subst hq2
            show pyIntD (intRepr osR) ≠ osS
            rw [pyIntD_intRepr]
            omega)
  set A2 := (join c osS S A1).2 with hA2
  have h2m : A2.sets (membersID c) = [intRepr 9999, intRepr R, intRepr S] := by
    rw [hj2m, h1m]
    rfl
  have h2h : A2.hashes (osmembersID c)
      = [(intRepr (-1), intRepr (-1)), (intRepr osR, intRepr R),
        (intRepr osS, intRepr S)] := by
    rw [hj2h, h1h]
    rfl
  have h2q : ∀ x, A2.queues x = [] := by
    intro x
    rw [hj2q]
    exact h1q x
  have hccS : checkCaller c osS A2 = .ok S := by
    apply checkCaller_ok_of
    · rw [h2h]
      simp only [List.map_cons, List.map_nil, pyIntD_intRepr]
      rw [lookup_cons_ne (show osS ≠ -1 by omega),
        lookup_cons_ne (show osS ≠ osR from hosSR),
        lookup_cons_self]
    · rw [h2m]
      simp
  have hsend := sendTo_single_ok c osS S R m A2 hccS (by rw [h2m]; simp)
  set B3 := (A2.rpush (procs2key c S R) (Val.payload m)).rpush
    (wakeupKey c R) Val.wakeupMark with hB3
  have hA3 : (sendTo c osS [R] m A2).2 = B3 := by rw [hsend]
  have hPW : procs2key c S R ≠ wakeupKey c R := procs2key_ne_wakeupKey c S R R
  have hWP : wakeupKey c R ≠ procs2key c S R := fun h => hPW h.symm
  have hqSR : B3.queues (procs2key c S R) = [Val.payload m] := by
    rw [hB3, rpush_queues_ne hPW, rpush_queues_self, h2q]
    rfl
  have hqWR : B3.queues (wakeupKey c R) = [Val.wakeupMark] := by
    rw [hB3, rpush_queues_self, rpush_queues_ne hWP, h2q]
    rfl
  have hq9R : B3.queues (procs2key c 9999 R) = [] := by
    rw [hB3,
      rpush_queues_ne (procs2key_ne_wakeupKey c 9999 R R),
      rpush_queues_ne (fun h => absurd
        ((procs2key_inj_pair hc0 hc1 (by omega) (by omega) hR0 (by omega)
          hS0 (by omega) hR0 (by omega)).mp h).1 (by omega))]
    exact h2q _
  have hgen : ∀ (keys : List RStr) (st st1 : Store) (v : Val) (block : Bool)
      (t : Int), st.blpop keys = some (wakeupKey c R, v, st1) →
      recvDispatch c R keys block t st = .again st1 := by
    intro keys st st1 v block t hbl
    exact recvDispatch_wakeup_again hbl
  set st2 := { B3 with queues := upd B3.queues (wakeupKey c R) [] } with hst2
  have hblStale : B3.blpop [procs2key c 9999 R, wakeupKey c R]
      = some (wakeupKey c R, Val.wakeupMark, st2) := by
    simp only [Store.blpop, hq9R, hqWR, hst2]
  have hdStale : recvDispatch c R (recvFromAnyKeys c R A1) true 0 B3
      = .again st2 := by
    rw [hstale]
    exact recvDispatch_wakeup_again hblStale
  -- second iteration, on the fresh candidate set
  have h2qSR : upd B3.queues (wakeupKey c R) [] (procs2key c S R)
      = [Val.payload m] := by
    rw [upd_ne _ _ _ hPW]
    exact hqSR
  have h2q9R : upd B3.queues (wakeupKey c R) [] (procs2key c 9999 R) = [] := by
    rw [upd_ne _ _ _ (procs2key_ne_wakeupKey c 9999 R R)]
    exact hq9R
  have hmem2 : membersInts c st2 = [9999, R, S] := by
    unfold membersInts Store.smembers
    rw [show st2.sets (membersID c) = [intRepr 9999, intRepr R, intRepr S]
      from h2m]
    simp [pyIntD_intRepr]
  have hkeys2 : recvFromAnyKeys c R st2
      = [procs2key c 9999 R, procs2key c S R, wakeupKey c R] := by
    unfold recvFromAnyKeys
    rw [hmem2]
    rw [show ([9999, R, S] : List Int).filter (fun i => decide (i ≠ R))
      = [9999, S] from by
        simp [List.filter_cons, show (9999 : Int) ≠ R by omega,
          show S ≠ R from hSR]]
    simp
  have hbl2 : st2.blpop [procs2key c 9999 R, procs2key c S R, wakeupKey c R]
      = some (procs2key c S R, Val.payload m,
        { st2 with queues := upd st2.queues (procs2key c S R) [] }) := by
    simp only [Store.blpop, h2q9R, h2qSR]
  have hiter2 : recvFromAnyIter c R true 0 st2
      = .ret (.msg S m)
        { st2 with queues := upd st2.queues (procs2key c S R) [] } := by
    simp only [recvFromAnyIter]
    rw [if_pos (show R ∈ membersInts c st2 from by rw [hmem2]; simp)]
    rw [hkeys2]
    exact recvDispatch_fires hc0 hc1 hS0 (by omega) hR0 (by omega) hbl2
  refine ⟨hgen, hj1ok, hstale, hj2ok, ?_, ?_, ?_⟩
  · rw [hsend]
  · rw [hA3]
    exact hdStale
  · rw [hA3]
    rw [show (1 : Nat) = 0 + 1 from rfl, recvFromAnyLoop_succ, hiter2]

/-- **C3**: per-pair FIFO.  In a channel with members S and R, after S
sends `m1` and then `m2` to R, two successive `recvFrom(S)` calls by R
return `(S, m1)` and then `(S, m2)`, in that order. -/
theorem claim_C3_fifo_per_pair (c S R osS osR m1 m2 : Int)
    (hc0 : 0 ≤ c) (hc1 : c ≤ 9999)
    (hS0 : 0 ≤ S) (hS1 : S < 9999) (hR0 : 0 ≤ R) (hR1 : R < 9999)
    (hSR : S ≠ R) (hosS : 0 < osS) (hosR : 0 < osR) (hosSR : osS ≠ osR) :
    (join c osS S (channelInit c false emptyStore)).1 = .ok () ∧
    (join c osR R (join c osS S (channelInit c false emptyStore)).2).1 = .ok () ∧
    (sendTo c osS [R] m1
      (join c osR R (join c osS S (channelInit c false emptyStore)).2).2).1
      = .ok () ∧
    (sendTo c osS [R] m2
      (sendTo c osS [R] m1
        (join c osR R (join c osS S (channelInit c false emptyStore)).2).2).2).1
      = .ok () ∧
    (recvFrom 1 c osR [S] true 0
      (sendTo c osS [R] m2
        (sendTo c osS [R] m1
          (join c osR R
            (join c osS S (channelInit c false emptyStore)).2).2).2).2).1
      = .msg S m1 ∧
    (recvFrom 1 c osR [S] true 0
      (recvFrom 1 c osR [S] true 0
        (sendTo c osS [R] m2
          (sendTo c osS [R] m1
            (join c osR R
              (join c osS S (channelInit c false emptyStore)).2).2).2).2).2).1
      = .msg S m2 := by
  have hS9 : S ≠ 9999 := by omega
  have hR9 : R ≠ 9999 := by omega
  obtain ⟨h0m, h0c, h0h, h0sx, h0hx, h0q⟩ := channelInit_empty_content c
  obtain ⟨hj1ok, hj1m, hj1h, hj1q, hj1sx, hj1hx⟩ :=
    join_ok_content c osS S (channelInit c false emptyStore)
      (by rw [h0m]
          intro hmem
          rw [List.mem_singleton] at hmem
          exact hS9 (intRepr_inj.mp hmem))
      (by rw [h0h]
          intro q hq
          rw [List.mem_singleton] at hq
          subst hq
          show pyIntD (intRepr (-1)) ≠ osS
          rw [pyIntD_intRepr]
          omega)
  set A1 := (join c osS S (channelInit c false emptyStore)).2 with hA1
  have h1m : A1.sets (membersID c) = [intRepr 9999, intRepr S] := by
    rw [hj1m, h0m]
    rfl
  have h1h : A1.hashes (osmembersID c)
      = [(intRepr (-1), intRepr (-1)), (intRepr osS, intRepr S)] := by
    rw [hj1h, h0h]
    rfl
  have h1q : ∀ x, A1.queues x = [] := by
    intro x
    rw [hj1q]
    exact h0q x
  obtain ⟨hj2ok, hj2m, hj2h, hj2q, hj2sx, hj2hx⟩ :=
    join_ok_content c osR R A1
      (by rw [h1m]
          intro hmem
          rcases List.mem_cons.mp hmem with h | h
          · exact hR9 (intRepr_inj.mp h)
          · rw [List.mem_singleton] at h
            exact hSR (intRepr_inj.mp h).symm)
      (by rw [h1h]
          intro q hq
          rcases List.mem_cons.mp hq with rfl | hq2
          · show pyIntD (intRepr (-1)) ≠ osR
            rw [pyIntD_intRepr]
            omega
          · rw [List.mem_singleton] at hq2
            subst hq2
            show pyIntD (intRepr osS) ≠ osR
            rw [pyIntD_intRepr]
            omega)
  set A2 := (join c osR R A1).2 with hA2
  have h2m : A2.sets (membersID c) = [intRepr 9999, intRepr S, intRepr R] := by
    rw [hj2m, h1m]
    rfl
  have h2h : A2.hashes (osmembersID c)
      = [(intRepr (-1), intRepr (-1)), (intRepr osS, intRepr S),
        (intRepr osR, intRepr R)] := by
    rw [hj2h, h1h]
    rfl
  have h2q : ∀ x, A2.queues x = [] := by
    intro x
    rw [hj2q]
    exact h1q x
  -- an authorization fact reusable at every later store with the same
  -- membership data
  have hccS_of : ∀ st : Store,
      st.hashes (osmembersID c)
        = [(intRepr (-1), intRepr (-1)), (intRepr osS, intRepr S),
          (intRepr osR, intRepr R)] →
      st.sets (membersID c) = [intRepr 9999, intRepr S, intRepr R] →
      checkCaller c osS st = .ok S := by
    intro st hh hm
    apply checkCaller_ok_of
    · rw [hh]
      simp only [List.map_cons, List.map_nil, pyIntD_intRepr]
      rw [lookup_cons_ne (show osS ≠ -1 by omega), lookup_cons_self]
    · rw [hm]
      simp
  have hccR_of : ∀ st : Store,
      st.hashes (osmembersID c)
        = [(intRepr (-1), intRepr (-1)), (intRepr osS, intRepr S),
          (intRepr osR, intRepr R)] →
      st.sets (membersID c) = [intRepr 9999, intRepr S, intRepr R] →
      checkCaller c osR st = .ok R := by
    intro st hh hm
    apply checkCaller_ok_of
    · rw [hh]
      simp only [List.map_cons, List.map_nil, pyIntD_intRepr]
      rw [lookup_cons_ne (show osR ≠ -1 by omega),
        lookup_cons_ne (show osR ≠ osS from fun h => hosSR h.symm),
        lookup_cons_self]
    · rw [hm]
      simp
  have hsend1 := sendTo_single_ok c osS S R m1 A2 (hccS_of A2 h2h h2m)
    (by rw [h2m]; simp)
  set B3 := (A2.rpush (procs2key c S R) (Val.payload m1)).rpush
    (wakeupKey c R) Val.wakeupMark with hB3
  have hA3 : (sendTo c osS [R] m1 A2).2 = B3 := by rw [hsend1]
  have h3h : B3.hashes (osmembersID c)
      = [(intRepr (-1), intRepr (-1)), (intRepr osS, intRepr S),
        (intRepr osR, intRepr R)] := h2h
  have h3m : B3.sets (membersID c) = [intRepr 9999, intRepr S, intRepr R] := h2m
  have hsend2 := sendTo_single_ok c osS S R m2 B3 (hccS_of B3 h3h h3m)
    (by rw [h3m]; simp)
  set B4 := (B3.rpush (procs2key c S R) (Val.payload m2)).rpush
    (wakeupKey c R) Val.wakeupMark with hB4
  have hA4 : (sendTo c osS [R] m2 B3).2 = B4 := by rw [hsend2]
  have h4h : B4.hashes (osmembersID c)
      = [(intRepr (-1), intRepr (-1)), (intRepr osS, intRepr S),
        (intRepr osR, intRepr R)] := h3h
  have h4m : B4.sets (membersID c) = [intRepr 9999, intRepr S, intRepr R] := h3m
  have hPW : procs2key c S R ≠ wakeupKey c R := procs2key_ne_wakeupKey c S R R
  have hqP : B4.queues (procs2key c S R)
      = [Val.payload m1, Val.payload m2] := by
    rw [hB4, rpush_queues_ne hPW, rpush_queues_self, hB3,
      rpush_queues_ne hPW, rpush_queues_self, h2q]
    rfl
  have hrecv1 := recvFrom_one_step c osR S R m1 B4 [Val.payload m2]
    hc0 hc1 hS0 (by omega) hR0 (by omega) hS9 hR9
    (hccR_of B4 h4h h4m) h4m
    (show B4.queues (procs2key c S R)
      = Val.payload m1 :: [Val.payload m2] from hqP)
  have h5h : Store.hashes
      { B4 with queues := upd B4.queues (procs2key c S R) [Val.payload m2] }
      (osmembersID c)
      = [(intRepr (-1), intRepr (-1)), (intRepr osS, intRepr S),
        (intRepr osR, intRepr R)] := h4h
  have h5m : Store.sets
      { B4 with queues := upd B4.queues (procs2key c S R) [Val.payload m2] }
      (membersID c) = [intRepr 9999, intRepr S, intRepr R] := h4m
  have hrecv2 := recvFrom_one_step c osR S R m2
    { B4 with queues := upd B4.queues (procs2key c S R) [Val.payload m2] } []
    hc0 hc1 hS0 (by omega) hR0 (by omega) hS9 hR9
    (hccR_of _ h5h h5m) h5m
    (show Store.queues
      { B4 with queues := upd B4.queues (procs2key c S R) [Val.payload m2] }
      (procs2key c S R) = Val.payload m2 :: [] from upd_self _ _ _)
  refine ⟨hj1ok, hj2ok, ?_, ?_, ?_, ?_⟩
  · rw [hsend1]
  · rw [hA3, hsend2]
  · rw [hA3, hA4, hrecv1]
  · rw [hA3, hA4, hrecv1]
    show (recvFrom 1 c osR [S] true 0
      { B4 with queues := upd B4.queues (procs2key c S R) [Val.payload m2] }).1
      = RecvResult.msg S m2
    rw [hrecv2]

/-! ## Claims -/

/-- **C4**: the claim states `join` fails with `AlreadyJoined` when the
calling OS process already has an `osMembers` entry and with `IdInUse`
when the channel-level id is taken.  In the code both membership tests
compare a Python `int` against the byte strings redis returns, so they
are always vacuously passed: an OS process that already joined can
join again, and a taken channel-level id can be taken again, both
returning normally.  Here OS process 200 (already joined as id 2)
re-joins as id 3, and OS process 300 joins with the in-use id 2. -/
theorem claim_C4_join_guards_never_fire :
    (join 1 200 3 demoStore2).1 = .ok () ∧
    (join 1 300 2 demoStore2).1 = .ok () ∧
    ((join 1 300 2 demoStore2).2.hashes (osmembersID 1)).lookup (intRepr 300)
      = some (intRepr 2) :=
  ⟨rfl, rfl, rfl⟩

/-- **C5**: the claim states `sendToAll` targets exactly the current
membership minus the sentinel id and pushes a wakeup marker for each
destination.  In the code the filter `i != MAXPROCID` compares redis
bytes against an int and never filters, so the sentinel 9999 also
receives the broadcast payload; and the wakeup push computes
`str(bytes)`, so the marker lands on a `b`-quoted key that no receiver
ever waits on, and the real wakeup key of destination 2 stays empty. -/
theorem claim_C5_sendToAll_sentinel_and_wakeup_bug :
    (sendToAll 1 100 7 demoStore2).1 = .ok () ∧
    demoBroadcast.queues (procs2key 1 1 9999) = [.payload 7] ∧
    demoBroadcast.queues (procs2key 1 1 2) = [.payload 7] ∧
    demoBroadcast.queues (wakeupKey 1 2) = [] ∧
    demoBroadcast.queues (wakeupKeyBytes 1 (intRepr 2)) = [.wakeupMark] :=
  ⟨rfl, rfl, rfl, rfl, rfl⟩

/-- **C7**: the claim states `leave` removes both the OS-mapping entry
and the channel-level membership entry and then returns normally.  The
code removes the OS-mapping entry with `hdel` but then calls
`channel.sdel(...)`, a method the redis client does not define (set
removal is `srem`), so the call raises `AttributeError`: the OS entry
is gone, the members entry survives, and the call does not return
normally. -/
theorem claim_C7_leave_crashes_after_half_removal :
    (leave 1 100 demoStore1).1 = .error .attributeError ∧
    ((leave 1 100 demoStore1).2.hashes (osmembersID 1)).lookup (intRepr 100)
      = none ∧
    intRepr 1 ∈ (leave 1 100 demoStore1).2.sets (membersID 1) :=
  ⟨rfl, rfl, by decide⟩

/-- **C6**: for ids and channel in the 4-digit range, `__key2procs`
inverts `__procs2key` exactly, and the encoding is injective per
(channel, sender, receiver) triple. -/
theorem claim_C6_codec_roundtrip_and_injective (c s r : Int)
    (hc0 : 0 ≤ c) (hc1 : c ≤ 9999) (hs0 : 0 ≤ s) (hs1 : s ≤ 9999)
    (hr0 : 0 ≤ r) (hr1 : r ≤ 9999) :
    key2procs (procs2key c s r) = some (s, r) ∧
    (∀ c' s' r', 0 ≤ c' → c' ≤ 9999 → 0 ≤ s' → s' ≤ 9999 → 0 ≤ r' → r' ≤ 9999 →
      (procs2key c s r = procs2key c' s' r' ↔ (c = c' ∧ s = s' ∧ r = r'))) := by
  refine ⟨key2procs_procs2key hc0 hc1 hs0 hs1 hr0 hr1, ?_⟩
  intro c' s' r' hc0' hc1' hs0' hs1' hr0' hr1'
  constructor
  · exact procs2key_inj hc0 hc1 hs0 hs1 hr0 hr1 hc0' hc1' hs0' hs1' hr0' hr1'
  · rintro ⟨rfl, rfl, rfl⟩; rfl

/-- Witness for C6 at the concrete triple (channel 1, sender 2,
receiver 3). -/
theorem claim_C6_codec_roundtrip_and_injective_witness :
    key2procs (procs2key 1 2 3) = some (2, 3) :=
  (claim_C6_codec_roundtrip_and_injective 1 2 3 (by decide) (by decide)
    (by decide) (by decide) (by decide) (by decide)).1

/-- **C8**: every operation resolves the caller through the freshly
read `osMembers` hash and the freshly read `members` set (both checks
on every call, no caching): `__checkCaller` succeeds exactly when the
OS pid maps to a channel-level id that is also a member, and when it
fails every subsequent operation fails the same way with the store
untouched. -/
theorem claim_C8_every_call_reauthorizes (c ospid : Int) (st : Store) :
    (∀ pid, checkCaller c ospid st = .ok pid ↔
      (((st.hgetall (osmembersID c)).map
          (fun p => (pyIntD p.1, pyIntD p.2))).lookup ospid = some pid ∧
        st.sismemberI (membersID c) pid = true)) ∧
    (∀ e, checkCaller c ospid st = .error e →
      (leave c ospid st = (.error e, st)) ∧
      (∀ dest m, sendTo c ospid dest m st = (.error e, st)) ∧
      (∀ m, sendToAll c ospid m st = (.error e, st)) ∧
      (∀ fuel sender block timeout,
        recvFrom fuel c ospid sender block timeout st = (.pyerr e, st)) ∧
      (∀ fuel block timeout,
        recvFromAny fuel c ospid block timeout st = (.pyerr e, st))) := by
  constructor
  · intro pid
    unfold checkCaller
    cases hl : (((st.hgetall (osmembersID c)).map
        (fun p => (pyIntD p.1, pyIntD p.2))).lookup ospid) with
    | none => simp [hl]
    | some q =>
      simp only [hl]
      by_cases hm : st.sismemberI (membersID c) q = true
      · rw [if_pos hm]
        constructor
        · intro h
          cases h
          exact ⟨rfl, hm⟩
        · rintro ⟨hq, -⟩
          cases hq
          rfl
      · rw [if_neg hm]
        constructor
        · intro h; cases h
        · rintro ⟨hq, hmem⟩
          cases hq
          exact absurd hmem hm
  · intro e he
    refine ⟨?_, ?_, ?_, ?_, ?_⟩
    · simp [leave, he]
    · intro dest m; simp [sendTo, he]
    · intro m; simp [sendToAll, he]
    · intro fuel sender block timeout; simp [recvFrom, he]
    · intro fuel block timeout; simp [recvFromAny, he]

/-- Witness for C8: in the freshly created channel, OS process 50
never joined, so `leave` fails with the `UnknownProcess` assertion. -/
theorem claim_C8_every_call_reauthorizes_witness :
    leave 1 50 demoStore0 = (.error .assertionFailed, demoStore0) :=
  (((claim_C8_every_call_reauthorizes 1 50 demoStore0).2 .assertionFailed rfl).1)

lemma blpop_isSome_of_nonempty (st : Store) :
    ∀ keys, (∃ k ∈ keys, st.queues k ≠ []) →
      ∃ k v st1, st.blpop keys = some (k, v, st1) := by
  intro keys
  induction keys with
  | nil => rintro ⟨k, hk, -⟩; cases hk
  | cons key rest ih =>
    rintro ⟨k, hk, hne⟩
    rw [Store.blpop]
    match hq : st.queues key with
    | w :: ws => exact ⟨key, w, _, rfl⟩
    | [] =>
      rcases List.mem_cons.mp hk with rfl | hk2
      · exact absurd hq hne
      · exact ih ⟨k, hk2, hne⟩

/-- With `block = false`, one dispatch step either loops with sets and
hashes untouched or returns something other than the blocked outcome,
provided the candidate keys hold no set or hash data. -/
lemma recvDispatch_nonblock (c pid : Int) (keys : List RStr) (timeout : Int)
    (st : Store) (hclean : ∀ k ∈ keys, st.sets k = [] ∧ st.hashes k = []) :
    (∃ st1, recvDispatch c pid keys false timeout st = .again st1 ∧
      st1.sets = st.sets ∧ st1.hashes = st.hashes) ∨
    (∃ r st1, recvDispatch c pid keys false timeout st = .ret r st1 ∧
      r ≠ .blockedForever) := by
  unfold recvDispatch
  by_cases hke : keysExist st keys = false
  · rw [if_pos ⟨rfl, hke⟩]
    exact Or.inr ⟨.noMsg, st, rfl, by simp⟩
  · rw [if_neg (by simp [hke])]
    have hex : ∃ k ∈ keys, st.queues k ≠ [] := by
      have : keysExist st keys = true := by
        cases h : keysExist st keys
        · exact absurd h hke
        · rfl
      unfold keysExist at this
      obtain ⟨k, hk, hex⟩ := List.any_eq_true.mp this
      refine ⟨k, hk, ?_⟩
      unfold Store.existsKey at hex
      obtain ⟨hs, hh⟩ := hclean k hk
      rw [hs, hh] at hex
      simpa using hex
    obtain ⟨k, v, st1, hbl⟩ := blpop_isSome_of_nonempty st keys hex
    simp only [hbl]
    obtain ⟨hsets, hhashes⟩ := blpop_sets_hashes st keys k v st1 hbl
    by_cases hwk : k = wakeupKey c pid
    · rw [if_neg (by simp [hwk])]
      exact Or.inl ⟨st1, rfl, hsets, hhashes⟩
    · rw [if_pos hwk]
      cases hk2 : key2procs k with
      | none =>
        simp only [hk2]
        exact Or.inr ⟨_, _, rfl, by simp⟩
      | some pr =>
        obtain ⟨s0, r0⟩ := pr
        simp only [hk2]
        cases v with
        | payload m => exact Or.inr ⟨_, _, rfl, by simp⟩
        | wakeupMark => exact Or.inr ⟨_, _, rfl, by simp⟩

lemma recvFromLoop_nonblock (c pid : Int) (sender : List Int) (timeout : Int) :
    ∀ (fuel : Nat) (st : Store),
      (∀ i, st.sets (procs2key c i pid) = [] ∧ st.hashes (procs2key c i pid) = []) →
      st.sets (wakeupKey c pid) = [] → st.hashes (wakeupKey c pid) = [] →
      (recvFromLoop c pid sender false timeout fuel st).1 ≠ .blockedForever := by
  intro fuel
  induction fuel with
  | zero => intro st _ _ _; rw [recvFromLoop]; simp
  | succ fuel ih =>
    intro st hP hW1 hW2
    rw [recvFromLoop]
    unfold recvFromIter
    by_cases h9 : (9999 : Int) ∈ membersInts c st
    · rw [if_pos h9]
      by_cases hall : sender.all
          (fun i => decide (i ∈ (membersInts c st).filter (fun i => decide (i ≠ 9999)))) = true
      · rw [if_pos hall]
        have hclean : ∀ k ∈ recvFromKeys c pid sender,
            st.sets k = [] ∧ st.hashes k = [] := by
          intro k hk
          unfold recvFromKeys at hk
          rcases List.mem_append.mp hk with h1 | h2
          · obtain ⟨i, -, rfl⟩ := List.mem_map.mp h1
            exact hP i
          · rw [List.mem_singleton.mp h2]
            exact ⟨hW1, hW2⟩
        rcases recvDispatch_nonblock c pid (recvFromKeys c pid sender) timeout st hclean with
          ⟨st1, hd, hs1, hh1⟩ | ⟨r, st1, hd, hr⟩
        · rw [hd]
          exact ih st1 (by intro i; rw [hs1, hh1]; exact hP i) (by rw [hs1]; exact hW1)
            (by rw [hh1]; exact hW2)
        · rw [hd]
          simpa using hr
      · rw [if_neg hall]
        simp
    · rw [if_neg h9]
      simp

lemma recvFromAnyLoop_nonblock (c pid : Int) (timeout : Int) :
    ∀ (fuel : Nat) (st : Store),
      (∀ i, st.sets (procs2key c i pid) = [] ∧ st.hashes (procs2key c i pid) = []) →
      st.sets (wakeupKey c pid) = [] → st.hashes (wakeupKey c pid) = [] →
      (recvFromAnyLoop c pid false timeout fuel st).1 ≠ .blockedForever := by
  intro fuel
  induction fuel with
  | zero => intro st _ _ _; rw [recvFromAnyLoop]; simp
  | succ fuel ih =>
    intro st hP hW1 hW2
    rw [recvFromAnyLoop]
    unfold recvFromAnyIter
    by_cases hmem : pid ∈ membersInts c st
    · rw [if_pos hmem]
      have hclean : ∀ k ∈ recvFromAnyKeys c pid st,
          st.sets k = [] ∧ st.hashes k = [] := by
        intro k hk
        unfold recvFromAnyKeys at hk
        rcases List.mem_append.mp hk with h1 | h2
        · obtain ⟨i, -, rfl⟩ := List.mem_map.mp h1
          exact hP i
        · rw [List.mem_singleton.mp h2]
          exact ⟨hW1, hW2⟩
      rcases recvDispatch_nonblock c pid (recvFromAnyKeys c pid st) timeout st hclean with
        ⟨st1, hd, hs1, hh1⟩ | ⟨r, st1, hd, hr⟩
      · rw [hd]
        exact ih st1 (by intro i; rw [hs1, hh1]; exact hP i) (by rw [hs1]; exact hW1)
          (by rw [hh1]; exact hW2)
      · rw [hd]
        simpa using hr
    · rw [if_neg hmem]
      simp

/-- **C9**: with `block = false` a receive returns `None` immediately
when no candidate key (pair keys plus the callers wakeup key) holds
data, and a non-blocking receive can never end up in the blocking
wait, for any fuel (the cleanliness hypotheses say the candidate keys
hold queue data only, which is true of every state the channel code
itself produces). -/
theorem claim_C9_nonblocking_never_blocks (c ospid pid : Int)
    (sender : List Int) (timeout : Int) (fuel : Nat) (st : Store)
    (hauth : checkCaller c ospid st = .ok pid)
    (hcleanP : ∀ i, st.sets (procs2key c i pid) = [] ∧
      st.hashes (procs2key c i pid) = [])
    (hcleanW1 : st.sets (wakeupKey c pid) = [])
    (hcleanW2 : st.hashes (wakeupKey c pid) = []) :
    ((9999 : Int) ∈ membersInts c st →
      sender.all (fun i => decide (i ∈ (membersInts c st).filter
        (fun j => decide (j ≠ 9999)))) = true →
      keysExist st (recvFromKeys c pid sender) = false →
      recvFrom (fuel + 1) c ospid sender false timeout st = (.noMsg, st)) ∧
    (pid ∈ membersInts c st →
      keysExist st (recvFromAnyKeys c pid st) = false →
      recvFromAny (fuel + 1) c ospid false timeout st = (.noMsg, st)) ∧
    (recvFrom fuel c ospid sender false timeout st).1 ≠ .blockedForever ∧
    (recvFromAny fuel c ospid false timeout st).1 ≠ .blockedForever := by
  refine ⟨?_, ?_, ?_, ?_⟩
  · intro h9 hall hke
    unfold recvFrom
    simp only [hauth]
    rw [recvFromLoop_succ]
    unfold recvFromIter
    rw [if_pos h9, if_pos hall]
    unfold recvDispatch
    rw [if_pos ⟨rfl, hke⟩]
  · intro hmem hke
    unfold recvFromAny
    simp only [hauth]
    rw [recvFromAnyLoop_succ]
    unfold recvFromAnyIter
    rw [if_pos hmem]
    unfold recvDispatch
    rw [if_pos ⟨rfl, hke⟩]
  · unfold recvFrom
    simp only [hauth]
    exact recvFromLoop_nonblock c pid sender timeout fuel st hcleanP hcleanW1 hcleanW2
  · unfold recvFromAny
    simp only [hauth]
    exact recvFromAnyLoop_nonblock c pid timeout fuel st hcleanP hcleanW1 hcleanW2

lemma demoStore2_pairkey_clean (i : Int) :
    demoStore2.sets (procs2key 1 i 2) = [] ∧
    demoStore2.hashes (procs2key 1 i 2) = [] := by
  constructor
  · show ((join 1 200 2 ((join 1 100 1 (channelInit 1 false emptyStore)).2)).2).sets
      (procs2key 1 i 2) = []
    rw [join_sets_ne (procs2key_ne_membersID 1 i 2),
      join_sets_ne (procs2key_ne_membersID 1 i 2),
      channelInit_sets_ne procs2key_ne_channelSetKey (procs2key_ne_membersID 1 i 2)]
    rfl
  · show ((join 1 200 2 ((join 1 100 1 (channelInit 1 false emptyStore)).2)).2).hashes
      (procs2key 1 i 2) = []
    rw [join_hashes_ne (procs2key_ne_osmembersID 1 i 2),
      join_hashes_ne (procs2key_ne_osmembersID 1 i 2),
      channelInit_hashes_ne (procs2key_ne_osmembersID 1 i 2)]
    rfl

/-- Witness for C9: member 2 (OS pid 200) polls non-blockingly in the
quiet two-member channel and gets `None` back immediately. -/
theorem claim_C9_nonblocking_never_blocks_witness :
    recvFrom 1 1 200 [1] false 0 demoStore2 = (.noMsg, demoStore2) :=
  (claim_C9_nonblocking_never_blocks 1 200 2 [1] 0 0 demoStore2 rfl
    demoStore2_pairkey_clean rfl rfl).1 (by decide) (by decide) (by decide)

/-! ## Reachable states (for the sentinel invariant) -/

lemma sadd_self_mem (st : Store) (k v : RStr) : v ∈ (st.sadd k v).sets k := by
  unfold Store.sadd
  split
  · assumption
  · show v ∈ upd st.sets k (st.sets k ++ [v]) k
    rw [upd_self]
    exact List.mem_append_right _ (List.mem_singleton.mpr rfl)

lemma hset_self_mem (st : Store) (k f v : RStr) :
    (f, v) ∈ (st.hset k f v).hashes k := by
  show (f, v) ∈ upd st.hashes k _ k
  rw [upd_self]
  split
  · next hany =>
    obtain ⟨p, hp, hpf⟩ := List.any_eq_true.mp hany
    refine List.mem_map.mpr ⟨p, hp, ?_⟩
    rw [if_pos (of_decide_eq_true hpf)]
  · exact List.mem_append_right _ (List.mem_singleton.mpr rfl)

lemma recvFromIter_frame (c pid : Int) (sender : List Int) (block : Bool)
    (timeout : Int) (st : Store) :
    (∀ r st1, recvFromIter c pid sender block timeout st = .ret r st1 →
      st1.sets = st.sets ∧ st1.hashes = st.hashes) ∧
    (∀ st1, recvFromIter c pid sender block timeout st = .again st1 →
      st1.sets = st.sets ∧ st1.hashes = st.hashes) := by
  simp only [recvFromIter]
  split
  · split
    · exact recvDispatch_frame c pid _ block timeout st
    · constructor
      · intro r st1 h
        cases h
        exact ⟨rfl, rfl⟩
      · intro st1 h
        cases h
  · constructor
    · intro r st1 h
      cases h
      exact ⟨rfl, rfl⟩
    · intro st1 h
      cases h

lemma recvFromAnyIter_frame (c pid : Int) (block : Bool) (timeout : Int)
    (st : Store) :
    (∀ r st1, recvFromAnyIter c pid block timeout st = .ret r st1 →
      st1.sets = st.sets ∧ st1.hashes = st.hashes) ∧
    (∀ st1, recvFromAnyIter c pid block timeout st = .again st1 →
      st1.sets = st.sets ∧ st1.hashes = st.hashes) := by
  unfold recvFromAnyIter
  split
  · exact recvDispatch_frame c pid _ block timeout st
  · constructor
    · intro r st1 h
      cases h
      exact ⟨rfl, rfl⟩
    · intro st1 h
      cases h

lemma recvFromLoop_frame (c pid : Int) (sender : List Int) (block : Bool)
    (timeout : Int) : ∀ (fuel : Nat) (st : Store),
    (recvFromLoop c pid sender block timeout fuel st).2.sets = st.sets ∧
    (recvFromLoop c pid sender block timeout fuel st).2.hashes = st.hashes := by
  intro fuel
  induction fuel with
  | zero => intro st; exact ⟨rfl, rfl⟩
  | succ fuel ih =>
    intro st
    rw [recvFromLoop]
    cases hiter : recvFromIter c pid sender block timeout st with
    | ret r st1 =>
      exact (recvFromIter_frame c pid sender block timeout st).1 r st1 hiter
    | again st1 =>
      obtain ⟨hs, hh⟩ := (recvFromIter_frame c pid sender block timeout st).2 st1 hiter
      obtain ⟨hs2, hh2⟩ := ih st1
      exact ⟨hs2.trans hs, hh2.trans hh⟩

lemma recvFromAnyLoop_frame (c pid : Int) (block : Bool) (timeout : Int) :
    ∀ (fuel : Nat) (st : Store),
    (recvFromAnyLoop c pid block timeout fuel st).2.sets = st.sets ∧
    (recvFromAnyLoop c pid block timeout fuel st).2.hashes = st.hashes := by
  intro fuel
  induction fuel with
  | zero => intro st; exact ⟨rfl, rfl⟩
  | succ fuel ih =>
    intro st
    rw [recvFromAnyLoop]
    cases hiter : recvFromAnyIter c pid block timeout st with
    | ret r st1 =>
      exact (recvFromAnyIter_frame c pid block timeout st).1 r st1 hiter
    | again st1 =>
      obtain ⟨hs, hh⟩ := (recvFromAnyIter_frame c pid block timeout st).2 st1 hiter
      obtain ⟨hs2, hh2⟩ := ih st1
      exact ⟨hs2.trans hs, hh2.trans hh⟩

lemma recvFrom_sets_hashes (fuel : Nat) (c o : Int) (sender : List Int)
    (block : Bool) (timeout : Int) (st : Store) :
    (recvFrom fuel c o sender block timeout st).2.sets = st.sets ∧
    (recvFrom fuel c o sender block timeout st).2.hashes = st.hashes := by
  unfold recvFrom
  cases checkCaller c o st with
  | error e => exact ⟨rfl, rfl⟩
  | ok pid => exact recvFromLoop_frame c pid sender block timeout fuel st

lemma recvFromAny_sets_hashes (fuel : Nat) (c o : Int) (block : Bool)
    (timeout : Int) (st : Store) :
    (recvFromAny fuel c o block timeout st).2.sets = st.sets ∧
    (recvFromAny fuel c o block timeout st).2.hashes = st.hashes := by
  unfold recvFromAny
  cases checkCaller c o st with
  | error e => exact ⟨rfl, rfl⟩
  | ok pid => exact recvFromAnyLoop_frame c pid block timeout fuel st

lemma channelInit_seeds {c : Int} {st : Store}
    (h : c ∉ (st.smembers channelSetKey).map pyIntD) :
    (intRepr (-1), intRepr (-1)) ∈ (channelInit c false st).hashes (osmembersID c) ∧
    intRepr 9999 ∈ (channelInit c false st).sets (membersID c) := by
  have hinit : channelInit c false st
      = ((st.saddI channelSetKey c).hsetI (osmembersID c) (-1) (-1)).saddI
        (membersID c) 9999 := by
    show (if c ∈ (st.smembers channelSetKey).map pyIntD then st else _) = _
    rw [if_neg h]
    rfl
  rw [hinit]
  constructor
  · show (intRepr (-1), intRepr (-1)) ∈
      (Store.saddI _ (membersID c) 9999).hashes (osmembersID c)
    unfold Store.saddI
    rw [sadd_hashes]
    exact hset_self_mem _ _ _ _
  · exact sadd_self_mem _ _ _

/-- **C10**: the sentinel entries seeded at channel creation (the hash
entry `-1 -> -1` in `osMembers` and the member id `9999`) survive every
join, leave, send and receive, so in every reachable state neither the
members set nor the osMembers hash is empty. -/
theorem claim_C10_sentinels_preserved (c : Int) (st : Store) (h : Reach c st) :
    (intRepr (-1), intRepr (-1)) ∈ st.hashes (osmembersID c) ∧
    intRepr 9999 ∈ st.sets (membersID c) ∧
    st.hashes (osmembersID c) ≠ [] ∧ st.sets (membersID c) ≠ [] := by
  have hmain : (intRepr (-1), intRepr (-1)) ∈ st.hashes (osmembersID c) ∧
      intRepr 9999 ∈ st.sets (membersID c) := by
    induction h with
    | base st h => exact channelInit_seeds h
    | baseFlush st =>
      have hempty : (c : Int) ∉ (emptyStore.smembers channelSetKey).map pyIntD := by
        simp [emptyStore, Store.smembers]
      exact channelInit_seeds hempty
    | step st st1 hr hs ih =>
      obtain ⟨ih1, ih2⟩ := ih
      cases hs with
      | joinStep ospid newpid st hpos =>
        constructor
        · simp only [join]
          split
          · exact ih1
          · split
            · exact ih1
            · have hmem : (intRepr (-1), intRepr (-1)) ∈
                  ((st.hsetI (osmembersID c) ospid newpid).saddI
                    (membersID c) newpid).hashes (osmembersID c) := by
                unfold Store.saddI
                rw [sadd_hashes]
                exact hset_hashes_mem ih1 (by
                  show intRepr (-1) ≠ intRepr ospid
                  rw [Ne, intRepr_inj]
                  omega)
              cases checkCaller c ospid
                  ((st.hsetI (osmembersID c) ospid newpid).saddI (membersID c) newpid) <;>
                exact hmem
        · simp only [join]
          split
          · exact ih2
          · split
            · exact ih2
            · have hmem : intRepr 9999 ∈
                  ((st.hsetI (osmembersID c) ospid newpid).saddI
                    (membersID c) newpid).sets (membersID c) := by
                unfold Store.saddI
                refine sadd_sets_mono ?_
                unfold Store.hsetI
                rw [hset_sets]
                exact ih2
              cases checkCaller c ospid
                  ((st.hsetI (osmembersID c) ospid newpid).saddI (membersID c) newpid) <;>
                exact hmem
      | leaveStep ospid st hpos =>
        constructor
        · unfold leave
          cases checkCaller c ospid st with
          | error e => exact ih1
          | ok q =>
            show (intRepr (-1), intRepr (-1)) ∈
              (st.hdelI (osmembersID c) ospid).hashes (osmembersID c)
            unfold Store.hdelI
            exact hdel_hashes_mem ih1 (by
              show intRepr (-1) ≠ intRepr ospid
              rw [Ne, intRepr_inj]
              omega)
        · rw [leave_sets]
          exact ih2
      | sendToStep ospid dest m st hpos =>
        obtain ⟨hs1, hs2⟩ := sendTo_sets_hashes c ospid dest m st
        rw [hs1, hs2]
        exact ⟨ih1, ih2⟩
      | sendToAllStep ospid m st hpos =>
        obtain ⟨hs1, hs2⟩ := sendToAll_sets_hashes c ospid m st
        rw [hs1, hs2]
        exact ⟨ih1, ih2⟩
      | recvFromStep fuel ospid sender block timeout st hpos =>
        obtain ⟨hs1, hs2⟩ := recvFrom_sets_hashes fuel c ospid sender block timeout st
        rw [hs1, hs2]
        exact ⟨ih1, ih2⟩
      | recvFromAnyStep fuel ospid block timeout st hpos =>
        obtain ⟨hs1, hs2⟩ := recvFromAny_sets_hashes fuel c ospid block timeout st
        rw [hs1, hs2]
        exact ⟨ih1, ih2⟩
  exact ⟨hmain.1, hmain.2, List.ne_nil_of_mem hmain.1, List.ne_nil_of_mem hmain.2⟩

/-- Witness for C10 at the freshly flushed channel 1. -/
theorem claim_C10_sentinels_preserved_witness :
    (intRepr (-1), intRepr (-1))
        ∈ (channelInit 1 true emptyStore).hashes (osmembersID 1) ∧
    intRepr 9999 ∈ (channelInit 1 true emptyStore).sets (membersID 1) ∧
    (channelInit 1 true emptyStore).hashes (osmembersID 1) ≠ [] ∧
    (channelInit 1 true emptyStore).sets (membersID 1) ≠ [] :=
  claim_C10_sentinels_preserved 1 _ (Reach.baseFlush emptyStore)

/-- Witness for C1 on channel 1 with members 1, 2, 3 (OS pids 100,
200, 300): member 2 receives `(1, 7)`, and the third member 3 polls
empty. -/
theorem claim_C1_delivery_to_exactly_the_destination_witness :
    (recvFrom 1 1 200 [1] true 0
      (sendTo 1 100 [2] 7
        (join 1 300 3
          (join 1 200 2
            (join 1 100 1 (channelInit 1 false emptyStore)).2).2).2).2).1
      = .msg 1 7 ∧
    (recvFromAny 1 1 300 false 0
      (sendTo 1 100 [2] 7
        (join 1 300 3
          (join 1 200 2
            (join 1 100 1 (channelInit 1 false emptyStore)).2).2).2).2).1
      = .noMsg :=
  ⟨(claim_C1_delivery_to_exactly_the_destination 1 1 2 3 100 200 300 7
      (by decide) (by decide) (by decide) (by decide) (by decide) (by decide)
      (by decide) (by decide) (by decide) (by decide) (by decide) (by decide)
      (by decide) (by decide) (by decide) (by decide)
      (by decide)).2.2.2.2.1,
    (claim_C1_delivery_to_exactly_the_destination 1 1 2 3 100 200 300 7
      (by decide) (by decide) (by decide) (by decide) (by decide) (by decide)
      (by decide) (by decide) (by decide) (by decide) (by decide) (by decide)
      (by decide) (by decide) (by decide) (by decide)
      (by decide)).2.2.2.2.2.2.1⟩

/-- Witness for C2 on channel 1: receiver 2 waited on a stale
candidate set, sender 1 joined and sent 7, and the retry loop delivers
`(1, 7)`. -/
theorem claim_C2_wakeup_discard_and_recompute_witness :
    (recvFromAnyLoop 1 2 true 0 1
      { (sendTo 1 100 [2] 7
          (join 1 100 1
            (join 1 200 2 (channelInit 1 false emptyStore)).2).2).2 with
        queues := upd
          (sendTo 1 100 [2] 7
            (join 1 100 1
              (join 1 200 2 (channelInit 1 false emptyStore)).2).2).2.queues
          (wakeupKey 1 2) [] }).1 = .msg 1 7 :=
  (claim_C2_wakeup_discard_and_recompute 1 1 2 100 200 7
    (by decide) (by decide) (by decide) (by decide) (by decide) (by decide)
    (by decide) (by decide) (by decide) (by decide)).2.2.2.2.2.2

/-- Witness for C3 on channel 1: after sends of 7 then 8, receiver 2
gets `(1, 7)` first and `(1, 8)` second. -/
theorem claim_C3_fifo_per_pair_witness :
    (recvFrom 1 1 200 [1] true 0
      (sendTo 1 100 [2] 8
        (sendTo 1 100 [2] 7
          (join 1 200 2
            (join 1 100 1 (channelInit 1 false emptyStore)).2).2).2).2).1
      = .msg 1 7 ∧
    (recvFrom 1 1 200 [1] true 0
      (recvFrom 1 1 200 [1] true 0
        (sendTo 1 100 [2] 8
          (sendTo 1 100 [2] 7
            (join 1 200 2
              (join 1 100 1 (channelInit 1 false emptyStore)).2).2).2).2).2).1
      = .msg 1 8 :=
  ⟨(claim_C3_fifo_per_pair 1 1 2 100 200 7 8
      (by decide) (by decide) (by decide) (by decide) (by decide) (by decide)
      (by decide) (by decide) (by decide) (by decide)).2.2.2.2.1,
    (claim_C3_fifo_per_pair 1 1 2 100 200 7 8
      (by decide) (by decide) (by decide) (by decide) (by decide) (by decide)
      (by decide) (by decide) (by decide) (by decide)).2.2.2.2.2⟩

end Channel
